import Mathlib

/-!
Shallow embedding of the eavesarp ARP-event ingestion and ledger engine
(`eavesarp/eavesarp.py`), with theorems checking the natural-language
specification against it.

External effects (scapy's `sr` ARP probe, DNS PTR resolution, file
presence, pcap contents) are threaded as explicit oracle functions, so a
"probe was not attempted" claim becomes "the result does not depend on the
oracle".  The SQLite store is a pure `DB` value; SQLAlchemy commits are
no-ops.  Row ids are assigned from a `nextId` counter (auto-increment).

The repository files `eavesarp/sql.py` (schema defaults) and
`eavesarp/lists.py` (`Lists.check`) are not part of the provided sources;
where a definition depends on them it is modelled from the spec and says
so in its doc comment.
-/

/-- Row of the `ip` table.  Defaults for a fresh row are modelled from the
spec (§4.1): `mac_address = null`, `resolve_attempted = false` (the actual
column defaults live in the missing `sql.py`). -/
structure IP where
  id : Nat
  value : String
  mac_address : Option String
  arp_resolve_attempted : Bool
deriving DecidableEq

/-- Row of the `ptr` table (reverse-name record). -/
structure PTR where
  ip_id : Nat
  value : String
deriving DecidableEq

/-- Row of the `transaction` table.  The initial `count` of 1 for a freshly
created row is modelled from the spec (§3: "initial value 1"); the column
default lives in the missing `sql.py`. -/
structure Transaction where
  sender_ip_id : Nat
  target_ip_id : Nat
  count : Nat
deriving DecidableEq

/-- The SQLite database contents for one session, plus the id counter. -/
structure DB where
  ips : List IP
  ptrs : List PTR
  transactions : List Transaction
  nextId : Nat
deriving DecidableEq

def emptyDB : DB := ⟨[], [], [], 0⟩

/-- A captured frame: either one carrying an ARP layer (with its `op`,
`psrc`, `pdst` fields) or any other frame. -/
inductive Packet where
  | arp (op : Nat) (psrc pdst : String)
  | other
deriving DecidableEq

/-- Modelled from the spec (§4.3): `lists.py` is not among the provided
sources; a `Lists` object (renamed `CheckLists` here; the name `Lists` is taken by Mathlib) is an allow/deny predicate over one address,
queried via `check`. -/
structure CheckLists where
  check : String → Bool

/-- Abstraction of `color.py`'s ColorProfile: three row stylers and the
optional target emoji (the concrete ANSI styling is external). -/
structure ColorProfile where
  style_even : List String → List String
  style_odd : List String → List String
  style_header : List String → List String
  target_emoji : Option String

/-- Result of `get_output`: either a plain message string or the table
handed to `tabulate` (headers and data rows). -/
inductive Output where
  | msg (s : String)
  | table (headers : List String) (rows : List (List String))
deriving DecidableEq

/-- `validate_packet`: keep only frames with an ARP layer whose `op` is 1
(WHO-HAS request), returning the unpacked `(psrc, pdst)` pair. -/
def validate_packet (p : Packet) : Option (String × String) :=
  match p with
  | Packet.arp op psrc pdst => if op == 1 then some (psrc, pdst) else none
  | Packet.other => none

/-- `unpack_packet`: extract `(psrc, pdst)` from the ARP layer without
checking `op`.  A frame with no ARP layer crashes the Python source
(attribute error on `None`); such frames are assumed absent and dropped. -/
def unpack_packet (p : Packet) : Option (String × String) :=
  match p with
  | Packet.arp _ psrc pdst => some (psrc, pdst)
  | Packet.other => none

/-- `filter_packet` (with its `validate_packet_unpack` decorator): `none`
stands for the Python `False`. -/
def filter_packet (sender_lists target_lists : Option CheckLists) (p : Packet) :
    Option (String × String) :=
  match validate_packet p with
  | none => none
  | some (sender, target) =>
    match sender_lists with
    | some L => if !(L.check sender) then none else
      match target_lists with
      | some M => if !(M.check target) then none else some (sender, target)
      | none => some (sender, target)
    | none =>
      match target_lists with
      | some M => if !(M.check target) then none else some (sender, target)
      | none => some (sender, target)

/-- `get_or_create_ip`.  `dns` is the reverse-resolution oracle
(`reverse_resolve`, `None` on failure) and `arp` the probe oracle
(`arp_request`, `None` when unanswered); both are invoked at most in the
creation branch, exactly as in the source. -/
def get_or_create_ip (dns arp : String → Option String) (a : String)
    (db : DB) (resolve : Bool) (ptr : Option String) (active : Bool) :
    IP × DB :=
  match db.ips.find? (fun r => r.value == a) with
  | some db_ip => (db_ip, db)
  | none =>
    let ip0 : IP := ⟨db.nextId, a, none, false⟩
    let db1 : DB := { db with ips := db.ips ++ [ip0], nextId := db.nextId + 1 }
    let db2 : DB :=
      match ptr with
      | some p => { db1 with ptrs := db1.ptrs ++ [⟨ip0.id, p⟩] }
      | none =>
        if resolve then
          match dns a with
          | some p => { db1 with ptrs := db1.ptrs ++ [⟨ip0.id, p⟩] }
          | none => db1
        else db1
    if active && !ip0.arp_resolve_attempted then
      let ip1 : IP := { ip0 with mac_address := arp a, arp_resolve_attempted := true }
      (ip1, { db2 with ips := db2.ips.map (fun r => if r.id == ip0.id then ip1 else r) })
    else (ip0, db2)

/-- Increment by `k` the count of the first transaction matching the id
pair (the mutation of the row returned by `.first()`). -/
def bumpFirstBy (sid tid k : Nat) : List Transaction → List Transaction
  | [] => []
  | tr :: rest =>
    if tr.sender_ip_id == sid && tr.target_ip_id == tid then
      { tr with count := tr.count + k } :: rest
    else tr :: bumpFirstBy sid tid k rest

/-- The shared transaction-recording step: look the `(sender_ip_id,
target_ip_id)` pair up; if absent insert a row with count `k`, else add
`k` to the found row's count.  `handle_packets` uses it with `k = 1`, the
sqlite merge of `analyze` with `k` the source row's count. -/
def record_tx (db2 : DB) (sid tid k : Nat) : DB :=
  match db2.transactions.find? (fun tr =>
      tr.sender_ip_id == sid && tr.target_ip_id == tid) with
  | none => { db2 with transactions := db2.transactions ++ [⟨sid, tid, k⟩] }
  | some _ => { db2 with transactions := bumpFirstBy sid tid k db2.transactions }

/-- Body of the `for packet in packets` loop of `handle_packets` for one
`(sender, target)` pair. -/
def handle_pair (dns arp : String → Option String) (resolve active : Bool)
    (db : DB) (p : String × String) : DB :=
  let s := get_or_create_ip dns arp p.1 db resolve none false
  let t := get_or_create_ip dns arp p.2 s.2 resolve none active
  record_tx t.2 s.1.id t.1.id 1

/-- `handle_packets` (with its `unpack_packets` decorator). -/
def handle_packets (dns arp : String → Option String) (packets : List Packet)
    (db : DB) (resolve active : Bool) (interface : Option String) :
    Except String DB :=
  if active && interface.isNone then
    Except.error "Active ARP resolution requires an interface ip"
  else
    Except.ok ((packets.filterMap unpack_packet).foldl
      (handle_pair dns arp resolve active) db)

/-- Ingestion of a list of already-unpacked pairs with the `handle_packets`
defaults (`resolve=False`, `active=False`), starting from `db`. -/
def runPairsFrom (dns arp : String → Option String) (db : DB)
    (ps : List (String × String)) : DB :=
  ps.foldl (handle_pair dns arp false false) db

def runPairs (dns arp : String → Option String)
    (ps : List (String × String)) : DB :=
  runPairsFrom dns arp emptyDB ps

/-- `do_sniff`: the scapy sniffer keeps exactly the frames on which the
`lfilter` lambda (`filter_packet` with the configured lists) is truthy. -/
def do_sniff (sender_lists target_lists : Option CheckLists)
    (packets : List Packet) : List Packet :=
  packets.filter (fun p => (filter_packet sender_lists target_lists p).isSome)

def noRecordsMsg : String :=
  "- No accepted ARP requests captured\n- If this is unexpected, check your whitelist/blacklist configuration"

/-- `t.sender` / `t.target` relationship resolution: the row of the `ip`
table with the given id (a dangling id would crash the Python source; the
dummy default is never reached on well-formed databases). -/
def ipOfIdD (db : DB) (i : Nat) : IP :=
  (db.ips.find? (fun r => r.id == i)).getD ⟨0, "", none, false⟩

/-- `x.ptr` relationship plus the `ptr[0].value` access: the value of the
first reverse-name record owned by the ip, if any. -/
def ptrOf (db : DB) (i : Nat) : Option String :=
  ((db.ptrs.filter (fun q => q.ip_id == i)).head?).map PTR.value

/-- The `sploit_char` ("TS" flag cell) computation of `get_output`. -/
def sploit_char (cp : Option ColorProfile) (tgt : IP) : String :=
  if tgt.mac_address.isNone && tgt.arp_resolve_attempted then
    match cp with
    | some c =>
      match c.target_emoji with
      | some e => e
      | none => "X"
    | none => "X"
  else ""

/-- One data row of `get_output` for transaction `t`, given whether its
sender is new to `rowdict`. -/
def transactionRow (db : DB) (cp : Option ColorProfile)
    (resolve active : Bool) (new_sender : Bool) (t : Transaction) :
    List String :=
  let sender := (ipOfIdD db t.sender_ip_id).value
  let target := (ipOfIdD db t.target_ip_id).value
  let row0 := if new_sender then [sender, target] else ["", target]
  let row1 :=
    if active then row0 ++ [sploit_char cp (ipOfIdD db t.target_ip_id)]
    else row0
  let row2 := row1 ++ [toString t.count]
  if resolve then
    let sptr := (ptrOf db t.sender_ip_id).getD ""
    let tptr := (ptrOf db t.target_ip_id).getD ""
    (row2 ++ [if new_sender then sptr else ""]) ++ [tptr]
  else row2

/-- One iteration of the `rowdict` loop of `get_output`: skip rows the
render-time lists reject, else append the row to its sender's bucket
(`rowdict` is an insertion-ordered dict, modelled as an association
list). -/
def rdStep (db : DB) (sender_lists target_lists : Option CheckLists)
    (cp : Option ColorProfile) (resolve active : Bool)
    (rd : List (String × List (List String))) (t : Transaction) :
    List (String × List (List String)) :=
  let sender := (ipOfIdD db t.sender_ip_id).value
  let target := (ipOfIdD db t.target_ip_id).value
  if (match sender_lists with | some L => !(L.check sender) | none => false) then rd
  else if (match target_lists with | some M => !(M.check target) | none => false) then rd
  else
    let new_sender := !(rd.any (fun kv : String × List (List String) => kv.1 == sender))
    let row := transactionRow db cp resolve active new_sender t
    if new_sender then rd ++ [(sender, [row])]
    else rd.map (fun kv : String × List (List String) =>
      if kv.1 == sender then (kv.1, kv.2 ++ [row]) else kv)

/-- The restructuring loop of `get_output`: concatenate the buckets in
dict order, styling odd/even groups (1-indexed) when a profile is set. -/
def restructure (cp : Option ColorProfile)
    (rd : List (String × List (List String))) : List (List String) :=
  (rd.foldl (fun (acc : List (List String) × Nat) kv =>
      let counter := acc.2 + 1
      let styled :=
        match cp with
        | some c =>
          if counter % 2 == 1 then kv.2.map c.style_odd
          else kv.2.map c.style_even
        | none => kv.2
      (acc.1 ++ styled, counter)) ([], 0)).1

/-- Header construction of `get_output` (`['Sender','Target','ARP#']`,
`TS` inserted at index 2 when `active`, PTR columns when `resolve`). -/
def buildHeaders (cp : Option ColorProfile) (resolve active : Bool) :
    List String :=
  let h0 := ["Sender", "Target", "ARP#"]
  let h1 := if active then ["Sender", "Target", "TS", "ARP#"] else h0
  let h2 := if resolve then h1 ++ ["Sender PTR", "Target PTR"] else h1
  match cp with
  | some c => c.style_header h2
  | none => h2

/-- Insert a transaction into a count-descending list, after all entries
with a count at least as large (stability for ties). -/
def insertByCountDesc (t : Transaction) : List Transaction → List Transaction
  | [] => [t]
  | u :: rest =>
    if u.count < t.count then t :: u :: rest
    else u :: insertByCountDesc t rest

/-- The `order_by(desc(Transaction.count))` query: a stable descending
sort by count (ties keep the table's insertion order). -/
def sortByCountDesc (ts : List Transaction) : List Transaction :=
  ts.foldl (fun acc t => insertByCountDesc t acc) []

/-- `get_output`. -/
def get_output (db : DB) (sender_lists target_lists : Option CheckLists)
    (cp : Option ColorProfile) (resolve active : Bool) : Output :=
  let transactions := sortByCountDesc db.transactions
  if transactions.isEmpty then Output.msg noRecordsMsg
  else
    let rd := transactions.foldl
      (rdStep db sender_lists target_lists cp resolve active) []
    Output.table (buildHeaders cp resolve active) (restructure cp rd)

/-- Body of the sqlite-import loop of `analyze` for one source transaction:
carry the first PTR values over, get-or-create both endpoint ips in the
output database (with `resolve=False` and the carried `ptr`), then add the
source count to the existing pair row (the source queries that row twice;
both queries return the same `.first()` row) or insert the pair with the
source count. -/
def merge_transaction (dns arp : String → Option String) (src : DB)
    (outdb : DB) (t : Transaction) : DB :=
  let sptr := ptrOf src t.sender_ip_id
  let tptr := ptrOf src t.target_ip_id
  let s := get_or_create_ip dns arp (ipOfIdD src t.sender_ip_id).value outdb false sptr false
  let tt := get_or_create_ip dns arp (ipOfIdD src t.target_ip_id).value s.2 false tptr false
  record_tx tt.2 s.1.id tt.1.id t.count

/-- The sqlite-file section of `analyze`: merge every transaction of the
source database into the output database. -/
def merge_sqlite (dns arp : String → Option String) (src outdb : DB) : DB :=
  src.transactions.foldl (merge_transaction dns arp src) outdb

/-- The pcap-file section of `analyze`: keep the frames on which
`filter_packet(p)` is truthy — called with its default `sender_lists=None`,
`target_lists=None`, so only the ARP WHO-HAS check applies — then ingest
them with `handle_packets` (defaults `resolve=False`, `active=False`). -/
def analyze_pcap (dns arp : String → Option String)
    (pcap_packets : List Packet) (outdb : DB) : Except String DB :=
  handle_packets dns arp
    (pcap_packets.filter (fun p => (filter_packet none none p).isSome))
    outdb false false none

/-- `validate_file_presence`: run the wrapped function on the file name
only when the file-presence oracle reports it exists, otherwise raise the
explicit not-found error.  The wrapped call is the `α`-producing thunk. -/
def validate_file_presence (exists_file : String → Bool)
    (f : String → α) (fname : String) : Except String α :=
  if exists_file fname then Except.ok (f fname)
  else Except.error ("File not found: " ++ fname)

/-- Modelled from the spec: the wiring that applies `validate_file_presence`
to each offline input file before `analyze` processes it is not among the
provided sources (the CLI entry point is missing from `src/`); §7 requires
a missing offline-import input to fail fast with an explicit "not found"
error and no partial processing.  `load` stands for reading and ingesting
the file's records into `db`. -/
def import_offline_source (exists_file : String → Bool)
    (load : String → DB → DB) (fname : String) (db : DB) :
    Except String DB :=
  validate_file_presence exists_file (fun fn => load fn db) fname

/-! ### Observation functions over the database (used to state claims) -/

/-- Lookup of an ip row by address value (the `filter(IP.value==ip)` query). -/
def findByValue (db : DB) (a : String) : Option IP :=
  db.ips.find? (fun r => r.value == a)

def valuesOf (db : DB) : List String := db.ips.map IP.value

/-- The address value stored under a row id, if any. -/
def ipValueOf (db : DB) (i : Nat) : Option String :=
  (db.ips.find? (fun r => r.id == i)).map IP.value

/-- Whether a transaction's endpoints carry the given address values. -/
def txMatches (db : DB) (a b : String) (t : Transaction) : Bool :=
  ipValueOf db t.sender_ip_id == some a && ipValueOf db t.target_ip_id == some b

/-- All transactions whose endpoints carry the given address values. -/
def txsFor (db : DB) (a b : String) : List Transaction :=
  db.transactions.filter (txMatches db a b)

/-- Number of ledger rows for the value pair `(a, b)`. -/
def lenFor (db : DB) (a b : String) : Nat := (txsFor db a b).length

/-- Total recorded count for the value pair `(a, b)`. -/
def sumFor (db : DB) (a b : String) : Nat :=
  ((txsFor db a b).map Transaction.count).sum

/-- Occurrences of the pair `(a, b)` in a list of events. -/
def occCount (ps : List (String × String)) (a b : String) : Nat :=
  ps.countP (fun q => decide (q.1 = a ∧ q.2 = b))

/-- Well-formedness of a session database: ids below the counter and
pairwise distinct, address values pairwise distinct, transactions (Inv is taken by Mathlib, hence DBInv)
referencing existing ips, and at most one transaction per id pair. -/
structure DBInv (db : DB) : Prop where
  ids_lt : ∀ r ∈ db.ips, r.id < db.nextId
  ids_nodup : (db.ips.map IP.id).Nodup
  values_nodup : (db.ips.map IP.value).Nodup
  tx_sender_mem : ∀ t ∈ db.transactions, ∃ r ∈ db.ips, r.id = t.sender_ip_id
  tx_target_mem : ∀ t ∈ db.transactions, ∃ r ∈ db.ips, r.id = t.target_ip_id
  tx_pairs_nodup :
    (db.transactions.map (fun t => (t.sender_ip_id, t.target_ip_id))).Nodup

/-! ### Spec-side renderings (used only to state and compare claims) -/

/-- Keys in order of first appearance (the insertion order of a dict). -/
def keysInOrder (l : List String) : List String :=
  l.foldl (fun acc k => if acc.contains k then acc else acc ++ [k]) []

/-- The sender address value of a transaction (via relationship lookup). -/
def senderValueD (db : DB) (t : Transaction) : String :=
  (ipOfIdD db t.sender_ip_id).value

/-- The rows of one sender group: the first transaction rendered with the
sender label, the rest with a blank label. -/
def bucketRows (db : DB) (cp : Option ColorProfile) (resolve active : Bool) :
    List Transaction → List (List String)
  | [] => []
  | t :: rest =>
    transactionRow db cp resolve active true t ::
      rest.map (transactionRow db cp resolve active false)

/-- Grouping that coalesces ALL transactions of one sender into a single
bucket placed at the sender's first appearance in `ts` (dict semantics). -/
def specGroups (db : DB) (cp : Option ColorProfile) (resolve active : Bool)
    (ts : List Transaction) : List (String × List (List String)) :=
  (keysInOrder (ts.map (senderValueD db))).map
    (fun s => (s, bucketRows db cp resolve active
      (ts.filter (fun t => senderValueD db t == s))))

/-- The render-time acceptance test applied by the `rowdict` loop. -/
def acceptedTx (db : DB) (sender_lists target_lists : Option CheckLists)
    (t : Transaction) : Bool :=
  !(match sender_lists with
    | some L => !(L.check (ipOfIdD db t.sender_ip_id).value)
    | none => false) &&
  !(match target_lists with
    | some M => !(M.check (ipOfIdD db t.target_ip_id).value)
    | none => false)

/-- Weakly descending test on a list of numbers. -/
def isDescending : List Nat → Bool
  | [] => true
  | [_] => true
  | a :: b :: rest => decide (b ≤ a) && isDescending (b :: rest)

/-- Decimal reading of a digit string. -/
def digitsToNat (l : List Char) : Nat :=
  l.foldl (fun n c => n * 10 + (c.toNat - 48)) 0

/-- The numeric reading of one column of a rendered table. -/
def countColumn (rows : List (List String)) (idx : Nat) : List Nat :=
  rows.map (fun r => digitsToNat (r.getD idx "").toList)

/-- The reverse-name records appended by the creation branch of
`get_or_create_ip` for a fresh row with id `n`. -/
def ptrDelta (dns : String → Option String) (a : String) (resolve : Bool)
    (ptr : Option String) (n : Nat) : List PTR :=
  match ptr with
  | some p => [⟨n, p⟩]
  | none =>
    if resolve then
      match dns a with
      | some p => [⟨n, p⟩]
      | none => []
    else []

/-- The ip row produced by the creation branch of `get_or_create_ip`. -/
def newIpRow (arp : String → Option String) (a : String) (active : Bool)
    (n : Nat) : IP :=
  if active then ⟨n, a, arp a, true⟩ else ⟨n, a, none, false⟩

/-! ### Helper lemmas -/

lemma find?_append_some {α} (p : α → Bool) {l₁ : List α} {r : α}
    (h : l₁.find? p = some r) (l₂ : List α) :
    (l₁ ++ l₂).find? p = some r := by
  rw [List.find?_append, h]; rfl

lemma find?_append_none {α} (p : α → Bool) {l₁ : List α}
    (h : l₁.find? p = none) (l₂ : List α) :
    (l₁ ++ l₂).find? p = l₂.find? p := by
  rw [List.find?_append, h]; rfl

lemma DBInv_empty : DBInv emptyDB := by
  constructor <;> simp [emptyDB]

lemma findByValue_eq_none_iff (db : DB) (a : String) :
    findByValue db a = none ↔ a ∉ valuesOf db := by
  unfold findByValue valuesOf
  rw [List.find?_eq_none]
  constructor
  · intro h hmem
    obtain ⟨r, hr, hv⟩ := List.mem_map.mp hmem
    exact h r hr (by simp [hv])
  · intro h r hr hp
    exact h (List.mem_map.mpr ⟨r, hr, by simpa using hp⟩)

lemma goc_found (dns arp : String → Option String) (a : String) (db : DB)
    (resolve : Bool) (ptr : Option String) (active : Bool) (r : IP)
    (h : findByValue db a = some r) :
    get_or_create_ip dns arp a db resolve ptr active = (r, db) := by
  unfold findByValue at h
  unfold get_or_create_ip
  rw [h]

lemma goc_new (dns arp : String → Option String) (a : String) (db : DB)
    (resolve : Bool) (ptr : Option String) (active : Bool)
    (hinv : DBInv db) (h : findByValue db a = none) :
    get_or_create_ip dns arp a db resolve ptr active =
      (newIpRow arp a active db.nextId,
       { ips := db.ips ++ [newIpRow arp a active db.nextId],
         ptrs := db.ptrs ++ ptrDelta dns a resolve ptr db.nextId,
         transactions := db.transactions,
         nextId := db.nextId + 1 }) := by
  unfold findByValue at h
  have hne : ∀ r ∈ db.ips, (r.id == db.nextId) = false := fun r hr => by
    simpa using Nat.ne_of_lt (hinv.ids_lt r hr)
  unfold get_or_create_ip
  rw [h]
  have hmap : ∀ ip1 : IP,
      db.ips.map (fun r => if r.id = db.nextId then ip1 else r) = db.ips := by
    intro ip1
    conv_rhs => rw [← List.map_id db.ips]
    exact List.map_congr_left (fun r hr => by
      simp [Nat.ne_of_lt (hinv.ids_lt r hr)])
  cases active with
  | false =>
    cases ptr with
    | some p => simp [ptrDelta, newIpRow]
    | none =>
      cases resolve with
      | false => simp [ptrDelta, newIpRow]
      | true =>
        cases hdns : dns a with
        | some p => simp [ptrDelta, newIpRow, hdns]
        | none => simp [ptrDelta, newIpRow, hdns]
  | true =>
    cases ptr with
    | some p => simp [ptrDelta, newIpRow, hmap]
    | none =>
      cases resolve with
      | false => simp [ptrDelta, newIpRow, hmap]
      | true =>
        cases hdns : dns a with
        | some p => simp [ptrDelta, newIpRow, hdns, hmap]
        | none => simp [ptrDelta, newIpRow, hdns, hmap]

lemma newIpRow_value (arp : String → Option String) (a : String)
    (active : Bool) (n : Nat) : (newIpRow arp a active n).value = a := by
  unfold newIpRow; cases active <;> rfl

/-- After the creation branch, looking the address up finds exactly the
returned row. -/
lemma goc_new_find (dns arp : String → Option String) (a : String) (db : DB)
    (resolve : Bool) (ptr : Option String) (active : Bool)
    (hinv : DBInv db) (h : findByValue db a = none) :
    findByValue (get_or_create_ip dns arp a db resolve ptr active).2 a =
      some (get_or_create_ip dns arp a db resolve ptr active).1 := by
  rw [goc_new dns arp a db resolve ptr active hinv h]
  unfold findByValue at h ⊢
  simp only
  rw [find?_append_none _ h]
  simp [newIpRow_value]

/-- A second `get_or_create_ip` call on the same address is a pure lookup:
it returns the first call's entity and leaves the database untouched,
whatever oracles and options either call uses. -/
lemma goc_idem (dns₁ arp₁ dns₂ arp₂ : String → Option String) (a : String)
    (db : DB) (res₁ act₁ res₂ act₂ : Bool) (ptr₁ ptr₂ : Option String)
    (hinv : DBInv db) :
    get_or_create_ip dns₂ arp₂ a
        (get_or_create_ip dns₁ arp₁ a db res₁ ptr₁ act₁).2 res₂ ptr₂ act₂ =
      get_or_create_ip dns₁ arp₁ a db res₁ ptr₁ act₁ := by
  cases hf : findByValue db a with
  | some r =>
    rw [goc_found dns₁ arp₁ a db res₁ ptr₁ act₁ r hf]
    exact goc_found dns₂ arp₂ a db res₂ ptr₂ act₂ r hf
  | none =>
    rw [goc_found dns₂ arp₂ a _ res₂ ptr₂ act₂ _
      (goc_new_find dns₁ arp₁ a db res₁ ptr₁ act₁ hinv hf)]

lemma goc_values_nodup (dns arp : String → Option String) (a : String)
    (db : DB) (resolve : Bool) (ptr : Option String) (active : Bool)
    (hinv : DBInv db) :
    (valuesOf (get_or_create_ip dns arp a db resolve ptr active).2).Nodup := by
  cases hf : findByValue db a with
  | some r =>
    rw [goc_found dns arp a db resolve ptr active r hf]
    exact hinv.values_nodup
  | none =>
    rw [goc_new dns arp a db resolve ptr active hinv hf]
    unfold valuesOf
    simp only [List.map_append]
    rw [List.nodup_append]
    refine ⟨hinv.values_nodup, by simp, ?_⟩
    intro x hx
    simp only [List.map_cons, List.map_nil, List.mem_singleton, newIpRow_value]
    intro hxa
    exact (findByValue_eq_none_iff db a).mp hf (hxa ▸ hx)

/-- In a list whose `f`-keys are pairwise distinct, searching for a
member's key finds exactly that member. -/
lemma find?_key_eq {α β : Type} [BEq β] [LawfulBEq β] (f : α → β)
    {l : List α} (hn : (l.map f).Nodup) {r : α} (hr : r ∈ l) :
    l.find? (fun x => f x == f r) = some r := by
  induction l with
  | nil => cases hr
  | cons u rest ih =>
    simp only [List.map_cons, List.nodup_cons] at hn
    by_cases hu : f u = f r
    · have hru : r = u := by
        rcases List.mem_cons.mp hr with h | h
        · exact h
        · exact absurd (List.mem_map.mpr ⟨r, h, hu.symm⟩) hn.1
      subst hru
      exact List.find?_cons_of_pos _ (by simp)
    · rw [List.find?_cons_of_neg _ (by simp [hu])]
      have hr' : r ∈ rest := by
        rcases List.mem_cons.mp hr with h | h
        · exact absurd (congrArg f h.symm) hu
        · exact h
      exact ih hn.2 hr'

lemma ipValueOf_of_mem {db : DB} (hids : (db.ips.map IP.id).Nodup)
    {r : IP} (hr : r ∈ db.ips) : ipValueOf db r.id = some r.value := by
  unfold ipValueOf
  rw [find?_key_eq IP.id hids hr]
  rfl

lemma ipValueOf_some_facts {db : DB} {i : Nat} {v : String}
    (h : ipValueOf db i = some v) :
    ∃ r ∈ db.ips, r.id = i ∧ r.value = v := by
  unfold ipValueOf at h
  cases hf : db.ips.find? (fun x => x.id == i) with
  | none => rw [hf] at h; cases h
  | some r =>
    rw [hf] at h
    refine ⟨r, List.mem_of_find?_eq_some hf, ?_, by simpa using h⟩
    simpa using List.find?_some hf

/-- Two row ids carrying the same address value are equal (value is a
unique key). -/
lemma ipValueOf_inj {db : DB} (hinv : DBInv db) {i j : Nat} {v : String}
    (hi : ipValueOf db i = some v) (hj : ipValueOf db j = some v) :
    i = j := by
  obtain ⟨r, hr, hri, hrv⟩ := ipValueOf_some_facts hi
  obtain ⟨q, hq, hqi, hqv⟩ := ipValueOf_some_facts hj
  have hrq : r = q :=
    List.inj_on_of_nodup_map hinv.values_nodup hr hq (by rw [hrv, hqv])
  rw [← hri, ← hqi, hrq]

lemma newIpRow_id (arp : String → Option String) (a : String)
    (active : Bool) (n : Nat) : (newIpRow arp a active n).id = n := by
  unfold newIpRow; cases active <;> rfl

/-- `get_or_create_ip` preserves database well-formedness. -/
lemma DBInv_goc (dns arp : String → Option String) (a : String) (db : DB)
    (res : Bool) (ptr : Option String) (act : Bool) (hinv : DBInv db) :
    DBInv (get_or_create_ip dns arp a db res ptr act).2 := by
  cases hf : findByValue db a with
  | some r => rw [goc_found dns arp a db res ptr act r hf]; exact hinv
  | none =>
    rw [goc_new dns arp a db res ptr act hinv hf]
    have hna : a ∉ valuesOf db := (findByValue_eq_none_iff db a).mp hf
    constructor
    · intro r hr
      rcases List.mem_append.mp hr with h1 | h1
      · exact Nat.lt_succ_of_lt (hinv.ids_lt r h1)
      · rw [List.mem_singleton.mp h1, newIpRow_id]
        exact Nat.lt_succ_self _
    · rw [List.map_append, List.nodup_append]
      refine ⟨hinv.ids_nodup, by simp, ?_⟩
      intro i hi
      simp only [List.map_cons, List.map_nil, List.mem_singleton, newIpRow_id]
      obtain ⟨r, hr, hri⟩ := List.mem_map.mp hi
      have : i < db.nextId := by rw [← hri]; exact hinv.ids_lt r hr
      exact Nat.ne_of_lt this
    · rw [List.map_append, List.nodup_append]
      refine ⟨hinv.values_nodup, by simp, ?_⟩
      intro v hv
      simp only [List.map_cons, List.map_nil, List.mem_singleton, newIpRow_value]
      intro hcon
      exact hna (hcon ▸ hv)
    · intro t ht
      obtain ⟨r, hr, hid⟩ := hinv.tx_sender_mem t ht
      exact ⟨r, List.mem_append_left _ hr, hid⟩
    · intro t ht
      obtain ⟨r, hr, hid⟩ := hinv.tx_target_mem t ht
      exact ⟨r, List.mem_append_left _ hr, hid⟩
    · exact hinv.tx_pairs_nodup

lemma goc_transactions (dns arp : String → Option String) (a : String)
    (db : DB) (res : Bool) (ptr : Option String) (act : Bool)
    (hinv : DBInv db) :
    (get_or_create_ip dns arp a db res ptr act).2.transactions =
      db.transactions := by
  cases hf : findByValue db a with
  | some r => rw [goc_found dns arp a db res ptr act r hf]
  | none => rw [goc_new dns arp a db res ptr act hinv hf]

lemma goc_ips_suffix (dns arp : String → Option String) (a : String)
    (db : DB) (res : Bool) (ptr : Option String) (act : Bool)
    (hinv : DBInv db) :
    ∃ L, (get_or_create_ip dns arp a db res ptr act).2.ips = db.ips ++ L := by
  cases hf : findByValue db a with
  | some r =>
    rw [goc_found dns arp a db res ptr act r hf]
    exact ⟨[], by simp⟩
  | none =>
    rw [goc_new dns arp a db res ptr act hinv hf]
    exact ⟨[newIpRow arp a act db.nextId], rfl⟩

/-- The value held under an existing row id is unchanged by
`get_or_create_ip`. -/
lemma goc_ipValueOf_stable (dns arp : String → Option String) (a : String)
    (db : DB) (res : Bool) (ptr : Option String) (act : Bool)
    (hinv : DBInv db) (i : Nat) (hi : ∃ r ∈ db.ips, r.id = i) :
    ipValueOf (get_or_create_ip dns arp a db res ptr act).2 i =
      ipValueOf db i := by
  obtain ⟨L, hL⟩ := goc_ips_suffix dns arp a db res ptr act hinv
  obtain ⟨r, hr, hri⟩ := hi
  have hexists : ∃ x ∈ db.ips, (fun x : IP => x.id == i) x :=
    ⟨r, hr, by simpa using hri⟩
  obtain ⟨q, hq⟩ := Option.isSome_iff_exists.mp
    ((List.find?_isSome).mpr hexists)
  unfold ipValueOf
  rw [hL, find?_append_some _ hq, hq]

lemma goc_txsFor (dns arp : String → Option String) (a : String) (db : DB)
    (res : Bool) (ptr : Option String) (act : Bool) (hinv : DBInv db)
    (x y : String) :
    txsFor (get_or_create_ip dns arp a db res ptr act).2 x y =
      txsFor db x y := by
  unfold txsFor
  rw [goc_transactions dns arp a db res ptr act hinv]
  apply List.filter_congr
  intro t ht
  unfold txMatches
  rw [goc_ipValueOf_stable dns arp a db res ptr act hinv _
        (hinv.tx_sender_mem t ht),
      goc_ipValueOf_stable dns arp a db res ptr act hinv _
        (hinv.tx_target_mem t ht)]

/-- The returned entity's id maps to the requested address value. -/
lemma goc_ipValueOf_self (dns arp : String → Option String) (a : String)
    (db : DB) (res : Bool) (ptr : Option String) (act : Bool)
    (hinv : DBInv db) :
    ipValueOf (get_or_create_ip dns arp a db res ptr act).2
      (get_or_create_ip dns arp a db res ptr act).1.id = some a := by
  have hfind : findByValue (get_or_create_ip dns arp a db res ptr act).2 a =
      some (get_or_create_ip dns arp a db res ptr act).1 := by
    cases hf : findByValue db a with
    | some r => rw [goc_found dns arp a db res ptr act r hf]; exact hf
    | none => exact goc_new_find dns arp a db res ptr act hinv hf
  unfold findByValue at hfind
  have hmem := List.mem_of_find?_eq_some hfind
  have hval : (get_or_create_ip dns arp a db res ptr act).1.value = a := by
    simpa using List.find?_some hfind
  have hids := (DBInv_goc dns arp a db res ptr act hinv).ids_nodup
  rw [ipValueOf_of_mem hids hmem, hval]

/-- Decomposition of a successful pair lookup and the induced
`bumpFirstBy` rewrite. -/
lemma bumpFirstBy_of_find? (sid tid k : Nat) (l : List Transaction)
    (tx0 : Transaction)
    (h : l.find? (fun tr =>
        tr.sender_ip_id == sid && tr.target_ip_id == tid) = some tx0) :
    ∃ l₁ l₂, l = l₁ ++ tx0 :: l₂ ∧
      (∀ u ∈ l₁, ¬(u.sender_ip_id = sid ∧ u.target_ip_id = tid)) ∧
      tx0.sender_ip_id = sid ∧ tx0.target_ip_id = tid ∧
      bumpFirstBy sid tid k l = l₁ ++ ⟨sid, tid, tx0.count + k⟩ :: l₂ := by
  induction l with
  | nil => cases h
  | cons u rest ih =>
    by_cases hu : (u.sender_ip_id == sid && u.target_ip_id == tid) = true
    · have h' : some u = some tx0 := by
        rw [← h]
        exact (List.find?_cons_of_pos rest hu).symm
      have hu0 : u = tx0 := by injection h'
      subst hu0
      have hp : u.sender_ip_id = sid ∧ u.target_ip_id = tid := by
        simpa using hu
      refine ⟨[], rest, by simp, by simp, hp.1, hp.2, ?_⟩
      simp only [bumpFirstBy, if_pos hu, List.nil_append]
      rw [show ({ u with count := u.count + k } : Transaction) =
        ⟨sid, tid, u.count + k⟩ from by rw [← hp.1, ← hp.2]]
    · have h' : rest.find? (fun tr =>
          tr.sender_ip_id == sid && tr.target_ip_id == tid) = some tx0 := by
        rw [← h]
        exact (List.find?_cons_of_neg rest hu).symm
      obtain ⟨l₁, l₂, hsplit, hl₁, h1, h2, hbump⟩ := ih h'
      refine ⟨u :: l₁, l₂, by rw [List.cons_append, hsplit], ?_, h1, h2, ?_⟩
      · intro v hv
        rcases List.mem_cons.mp hv with hvu | hvl
        · subst hvu
          intro hc
          exact hu (by simp [hc.1, hc.2])
        · exact hl₁ v hvl
      · simp only [bumpFirstBy, if_neg hu, hbump, List.cons_append]

/-- Claim-irrelevant components do not affect value lookups: `txMatches`
only reads `ips`, which a transaction-list update leaves untouched. -/
lemma txMatches_tx_update (db : DB) (X : List Transaction) (a b : String) :
    txMatches { db with transactions := X } a b = txMatches db a b := rfl

lemma record_tx_none (db2 : DB) (sid tid k : Nat)
    (hf : db2.transactions.find? (fun tr =>
        tr.sender_ip_id == sid && tr.target_ip_id == tid) = none) :
    record_tx db2 sid tid k =
      { db2 with transactions := db2.transactions ++ [⟨sid, tid, k⟩] } := by
  unfold record_tx
  rw [hf]

lemma record_tx_some (db2 : DB) (sid tid k : Nat) (tx0 : Transaction)
    (hf : db2.transactions.find? (fun tr =>
        tr.sender_ip_id == sid && tr.target_ip_id == tid) = some tx0) :
    record_tx db2 sid tid k =
      { db2 with transactions := bumpFirstBy sid tid k db2.transactions } := by
  unfold record_tx
  rw [hf]

lemma pairs_tx_update (db : DB) (X : List Transaction) :
    ({ db with transactions := X } : DB).transactions = X := rfl

lemma sumFor_tx_update (db : DB) (X : List Transaction) (a b : String) :
    sumFor { db with transactions := X } a b =
      ((X.filter (txMatches db a b)).map Transaction.count).sum := rfl

lemma lenFor_tx_update (db : DB) (X : List Transaction) (a b : String) :
    lenFor { db with transactions := X } a b =
      (X.filter (txMatches db a b)).length := rfl

lemma sumFor_eq (db : DB) (a b : String) :
    sumFor db a b =
      ((db.transactions.filter (txMatches db a b)).map Transaction.count).sum :=
  rfl

lemma lenFor_eq (db : DB) (a b : String) :
    lenFor db a b = (db.transactions.filter (txMatches db a b)).length := rfl

/-- Effect of the shared transaction-recording step on the per-pair rows:
the `(x, y)` value pair gains `k` and has exactly one row afterwards;
every other value pair is untouched. -/
lemma record_tx_effect (db2 : DB) (sid tid k : Nat) (x y : String)
    (hinv2 : DBInv db2) (hsx : ipValueOf db2 sid = some x)
    (hty : ipValueOf db2 tid = some y) :
    DBInv (record_tx db2 sid tid k) ∧
    (∀ a b, sumFor (record_tx db2 sid tid k) a b =
      sumFor db2 a b + (if x = a ∧ y = b then k else 0)) ∧
    (∀ a b, lenFor (record_tx db2 sid tid k) a b =
      (if x = a ∧ y = b then 1 else lenFor db2 a b)) := by
  have hA : ∀ a b (tr : Transaction), tr.sender_ip_id = sid →
      tr.target_ip_id = tid →
      (txMatches db2 a b tr = true ↔ (x = a ∧ y = b)) := by
    intro a b tr h1 h2
    unfold txMatches
    rw [h1, h2, hsx, hty]
    constructor
    · intro h
      simp only [Bool.and_eq_true, beq_iff_eq, Option.some.injEq] at h
      exact ⟨h.1, h.2⟩
    · rintro ⟨rfl, rfl⟩
      simp
  have hC : ∀ tr, txMatches db2 x y tr = true →
      tr.sender_ip_id = sid ∧ tr.target_ip_id = tid := by
    intro tr hm
    unfold txMatches at hm
    simp only [Bool.and_eq_true, beq_iff_eq] at hm
    exact ⟨ipValueOf_inj hinv2 hm.1 hsx, ipValueOf_inj hinv2 hm.2 hty⟩
  obtain ⟨rs, hrs, hrsid, _⟩ := ipValueOf_some_facts hsx
  obtain ⟨rt, hrt, hrtid, _⟩ := ipValueOf_some_facts hty
  cases hf : db2.transactions.find? (fun tr =>
      tr.sender_ip_id == sid && tr.target_ip_id == tid) with
  | none =>
    have hnone : ∀ tr ∈ db2.transactions,
        ¬(tr.sender_ip_id = sid ∧ tr.target_ip_id = tid) := by
      intro tr htr hcon
      have := List.find?_eq_none.mp hf tr htr
      simp [hcon.1, hcon.2] at this
    have hmatch_new : ∀ a b,
        txMatches db2 a b ⟨sid, tid, k⟩ = true ↔ (x = a ∧ y = b) :=
      fun a b => hA a b ⟨sid, tid, k⟩ rfl rfl
    have hnewfilter : ∀ a b,
        List.filter (txMatches db2 a b) [(⟨sid, tid, k⟩ : Transaction)] =
          if x = a ∧ y = b then [(⟨sid, tid, k⟩ : Transaction)] else [] := by
      intro a b
      by_cases hcond : x = a ∧ y = b
      · rw [if_pos hcond]
        simp [List.filter_cons, (hmatch_new a b).mpr hcond]
      · rw [if_neg hcond]
        simp only [List.filter_cons, List.filter_nil]
        rw [if_neg]
        intro hc
        exact hcond ((hmatch_new a b).mp hc)
    have hemptyfilter : ∀ a b, (x = a ∧ y = b) →
        List.filter (txMatches db2 a b) db2.transactions = [] := by
      rintro a b ⟨rfl, rfl⟩
      rw [List.filter_eq_nil_iff]
      intro tr htr hm
      exact hnone tr htr (hC tr hm)
    rw [record_tx_none db2 sid tid k hf]
    refine ⟨?_, ?_, ?_⟩
    · constructor
      · exact hinv2.ids_lt
      · exact hinv2.ids_nodup
      · exact hinv2.values_nodup
      · intro t ht
        rcases List.mem_append.mp ht with h1 | h1
        · exact hinv2.tx_sender_mem t h1
        · rw [List.mem_singleton.mp h1]
          exact ⟨rs, hrs, hrsid⟩
      · intro t ht
        rcases List.mem_append.mp ht with h1 | h1
        · exact hinv2.tx_target_mem t h1
        · rw [List.mem_singleton.mp h1]
          exact ⟨rt, hrt, hrtid⟩
      · rw [pairs_tx_update, List.map_append, List.nodup_append]
        refine ⟨hinv2.tx_pairs_nodup, by simp, ?_⟩
        intro q hq
        simp only [List.map_cons, List.map_nil, List.mem_singleton]
        obtain ⟨tr, htr, htrq⟩ := List.mem_map.mp hq
        intro hcon
        rw [hcon] at htrq
        exact hnone tr htr ⟨congrArg Prod.fst htrq, congrArg Prod.snd htrq⟩
    · intro a b
      rw [sumFor_tx_update, sumFor_eq db2 a b, List.filter_append,
        List.map_append, List.sum_append, hnewfilter a b]
      by_cases hcond : x = a ∧ y = b
      · rw [if_pos hcond, if_pos hcond]
        simp
      · rw [if_neg hcond, if_neg hcond]
        simp
    · intro a b
      rw [lenFor_tx_update, lenFor_eq db2 a b, List.filter_append,
        List.length_append, hnewfilter a b]
      by_cases hcond : x = a ∧ y = b
      · rw [if_pos hcond, if_pos hcond, hemptyfilter a b hcond]
        simp
      · rw [if_neg hcond, if_neg hcond]
        simp
  | some tx0 =>
    obtain ⟨l₁, l₂, hsplit, hl₁, hs0, ht0, hbump⟩ :=
      bumpFirstBy_of_find? sid tid k db2.transactions tx0 hf
    have hl₂ : ∀ u ∈ l₂, ¬(u.sender_ip_id = sid ∧ u.target_ip_id = tid) := by
      have hnd := hinv2.tx_pairs_nodup
      rw [hsplit, List.map_append, List.map_cons, List.nodup_append] at hnd
      have hmid := hnd.2.1
      rw [List.nodup_cons] at hmid
      intro u hu hcon
      apply hmid.1
      rw [hs0, ht0, ← hcon.1, ← hcon.2]
      exact List.mem_map.mpr ⟨u, hu, rfl⟩
    have hmatch_new : ∀ a b,
        txMatches db2 a b ⟨sid, tid, tx0.count + k⟩ = true ↔
          (x = a ∧ y = b) :=
      fun a b => hA a b ⟨sid, tid, tx0.count + k⟩ rfl rfl
    have hmatch_tx0 : ∀ a b,
        txMatches db2 a b tx0 = true ↔ (x = a ∧ y = b) :=
      fun a b => hA a b tx0 hs0 ht0
    have hfilter_sides : ∀ a b, (x = a ∧ y = b) → ∀ (l' : List Transaction),
        (∀ u ∈ l', ¬(u.sender_ip_id = sid ∧ u.target_ip_id = tid)) →
        List.filter (txMatches db2 a b) l' = [] := by
      rintro a b ⟨rfl, rfl⟩ l' hl'
      rw [List.filter_eq_nil_iff]
      intro u hu hm
      exact hl' u hu (hC u hm)
    rw [record_tx_some db2 sid tid k tx0 hf]
    refine ⟨?_, ?_, ?_⟩
    · constructor
      · exact hinv2.ids_lt
      · exact hinv2.ids_nodup
      · exact hinv2.values_nodup
      · intro t ht
        replace ht : t ∈ l₁ ++ ⟨sid, tid, tx0.count + k⟩ :: l₂ := hbump ▸ ht
        rcases List.mem_append.mp ht with h1 | h1
        · exact hinv2.tx_sender_mem t
            (by rw [hsplit]; exact List.mem_append_left _ h1)
        · rcases List.mem_cons.mp h1 with h2 | h2
          · rw [h2]; exact ⟨rs, hrs, hrsid⟩
          · exact hinv2.tx_sender_mem t (by
              rw [hsplit]
              exact List.mem_append_right _ (List.mem_cons_of_mem _ h2))
      · intro t ht
        replace ht : t ∈ l₁ ++ ⟨sid, tid, tx0.count + k⟩ :: l₂ := hbump ▸ ht
        rcases List.mem_append.mp ht with h1 | h1
        · exact hinv2.tx_target_mem t
            (by rw [hsplit]; exact List.mem_append_left _ h1)
        · rcases List.mem_cons.mp h1 with h2 | h2
          · rw [h2]; exact ⟨rt, hrt, hrtid⟩
          · exact hinv2.tx_target_mem t (by
              rw [hsplit]
              exact List.mem_append_right _ (List.mem_cons_of_mem _ h2))
      · have hnd := hinv2.tx_pairs_nodup
        rw [hsplit] at hnd
        rw [pairs_tx_update, hbump]
        simp only [List.map_append, List.map_cons] at hnd ⊢
        rw [hs0, ht0] at hnd
        exact hnd
    · intro a b
      rw [sumFor_tx_update, sumFor_eq db2 a b, hbump, hsplit,
        List.filter_append, List.filter_append, List.filter_cons,
        List.filter_cons]
      by_cases hcond : x = a ∧ y = b
      · rw [hfilter_sides a b hcond l₁ hl₁, hfilter_sides a b hcond l₂ hl₂,
          if_pos ((hmatch_new a b).mpr hcond),
          if_pos ((hmatch_tx0 a b).mpr hcond), if_pos hcond]
        simp
      · rw [if_neg (fun hc => hcond ((hmatch_new a b).mp hc)),
          if_neg (fun hc => hcond ((hmatch_tx0 a b).mp hc)), if_neg hcond]
        simp
    · intro a b
      rw [lenFor_tx_update, lenFor_eq db2 a b, hbump, hsplit,
        List.filter_append, List.filter_append, List.filter_cons,
        List.filter_cons]
      by_cases hcond : x = a ∧ y = b
      · rw [hfilter_sides a b hcond l₁ hl₁, hfilter_sides a b hcond l₂ hl₂,
          if_pos ((hmatch_new a b).mpr hcond),
          if_pos ((hmatch_tx0 a b).mpr hcond), if_pos hcond]
        simp
      · rw [if_neg (fun hc => hcond ((hmatch_new a b).mp hc)),
          if_neg (fun hc => hcond ((hmatch_tx0 a b).mp hc)), if_neg hcond]

/-- Combined facts after the two `get_or_create_ip` calls of one
`handle_packets` iteration. -/
lemma gocPair_facts (dns arp : String → Option String) (x y : String)
    (db : DB) (ptr1 ptr2 : Option String) (act2 : Bool) (hinv : DBInv db) :
    DBInv (get_or_create_ip dns arp y
        (get_or_create_ip dns arp x db false ptr1 false).2 false ptr2 act2).2 ∧
    ipValueOf (get_or_create_ip dns arp y
        (get_or_create_ip dns arp x db false ptr1 false).2 false ptr2 act2).2
      (get_or_create_ip dns arp x db false ptr1 false).1.id = some x ∧
    ipValueOf (get_or_create_ip dns arp y
        (get_or_create_ip dns arp x db false ptr1 false).2 false ptr2 act2).2
      (get_or_create_ip dns arp y
        (get_or_create_ip dns arp x db false ptr1 false).2
        false ptr2 act2).1.id = some y ∧
    (∀ a b, txsFor (get_or_create_ip dns arp y
        (get_or_create_ip dns arp x db false ptr1 false).2
        false ptr2 act2).2 a b = txsFor db a b) := by
  have hinv1 := DBInv_goc dns arp x db false ptr1 false hinv
  refine ⟨DBInv_goc dns arp y _ false ptr2 act2 hinv1, ?_, ?_, ?_⟩
  · have h1 := goc_ipValueOf_self dns arp x db false ptr1 false hinv
    obtain ⟨r, hr, hri, _⟩ := ipValueOf_some_facts h1
    rw [goc_ipValueOf_stable dns arp y _ false ptr2 act2 hinv1 _ ⟨r, hr, hri⟩]
    exact h1
  · exact goc_ipValueOf_self dns arp y _ false ptr2 act2 hinv1
  · intro a b
    rw [goc_txsFor dns arp y _ false ptr2 act2 hinv1 a b,
      goc_txsFor dns arp x db false ptr1 false hinv a b]

/-- Effect of one ingested `(x, y)` event on the ledger, by value pair. -/
lemma handle_pair_effect (dns arp : String → Option String) (x y : String)
    (db : DB) (hinv : DBInv db) :
    DBInv (handle_pair dns arp false false db (x, y)) ∧
    (∀ a b, sumFor (handle_pair dns arp false false db (x, y)) a b =
      sumFor db a b + (if x = a ∧ y = b then 1 else 0)) ∧
    (∀ a b, lenFor (handle_pair dns arp false false db (x, y)) a b =
      (if x = a ∧ y = b then 1 else lenFor db a b)) := by
  obtain ⟨hinv2, hsx, hty, htxs⟩ :=
    gocPair_facts dns arp x y db none none false hinv
  have heq : handle_pair dns arp false false db (x, y) =
      record_tx (get_or_create_ip dns arp y
          (get_or_create_ip dns arp x db false none false).2
          false none false).2
        (get_or_create_ip dns arp x db false none false).1.id
        (get_or_create_ip dns arp y
          (get_or_create_ip dns arp x db false none false).2
          false none false).1.id 1 := rfl
  obtain ⟨I, S, L⟩ := record_tx_effect _ _ _ 1 x y hinv2 hsx hty
  rw [heq]
  refine ⟨I, ?_, ?_⟩
  · intro a b
    rw [S a b]
    have hs : sumFor (get_or_create_ip dns arp y
        (get_or_create_ip dns arp x db false none false).2
        false none false).2 a b = sumFor db a b := by
      unfold sumFor
      rw [htxs a b]
    rw [hs]
  · intro a b
    rw [L a b]
    have hl : lenFor (get_or_create_ip dns arp y
        (get_or_create_ip dns arp x db false none false).2
        false none false).2 a b = lenFor db a b := by
      unfold lenFor
      rw [htxs a b]
    rw [hl]

/-- Effect of merging one source transaction into the output database:
the source row's value pair gains the source count (created with that
count if absent); every other value pair is untouched. -/
lemma merge_transaction_effect (dns arp : String → Option String)
    (src outdb : DB) (t : Transaction) (hinv : DBInv outdb) :
    DBInv (merge_transaction dns arp src outdb t) ∧
    (∀ a b, sumFor (merge_transaction dns arp src outdb t) a b =
      sumFor outdb a b +
        (if (ipOfIdD src t.sender_ip_id).value = a ∧
            (ipOfIdD src t.target_ip_id).value = b then t.count else 0)) ∧
    (∀ a b, lenFor (merge_transaction dns arp src outdb t) a b =
      (if (ipOfIdD src t.sender_ip_id).value = a ∧
          (ipOfIdD src t.target_ip_id).value = b then 1
       else lenFor outdb a b)) := by
  obtain ⟨hinv2, hsx, hty, htxs⟩ :=
    gocPair_facts dns arp (ipOfIdD src t.sender_ip_id).value
      (ipOfIdD src t.target_ip_id).value outdb
      (ptrOf src t.sender_ip_id) (ptrOf src t.target_ip_id) false hinv
  have heq : merge_transaction dns arp src outdb t =
      record_tx (get_or_create_ip dns arp (ipOfIdD src t.target_ip_id).value
          (get_or_create_ip dns arp (ipOfIdD src t.sender_ip_id).value outdb
            false (ptrOf src t.sender_ip_id) false).2
          false (ptrOf src t.target_ip_id) false).2
        (get_or_create_ip dns arp (ipOfIdD src t.sender_ip_id).value outdb
          false (ptrOf src t.sender_ip_id) false).1.id
        (get_or_create_ip dns arp (ipOfIdD src t.target_ip_id).value
          (get_or_create_ip dns arp (ipOfIdD src t.sender_ip_id).value outdb
            false (ptrOf src t.sender_ip_id) false).2
          false (ptrOf src t.target_ip_id) false).1.id
        t.count := rfl
  obtain ⟨I, S, L⟩ := record_tx_effect _ _ _ t.count _ _ hinv2 hsx hty
  rw [heq]
  refine ⟨I, ?_, ?_⟩
  · intro a b
    rw [S a b]
    have hs : sumFor (get_or_create_ip dns arp
        (ipOfIdD src t.target_ip_id).value
        (get_or_create_ip dns arp (ipOfIdD src t.sender_ip_id).value outdb
          false (ptrOf src t.sender_ip_id) false).2
        false (ptrOf src t.target_ip_id) false).2 a b = sumFor outdb a b := by
      unfold sumFor
      rw [htxs a b]
    rw [hs]
  · intro a b
    rw [L a b]
    have hl : lenFor (get_or_create_ip dns arp
        (ipOfIdD src t.target_ip_id).value
        (get_or_create_ip dns arp (ipOfIdD src t.sender_ip_id).value outdb
          false (ptrOf src t.sender_ip_id) false).2
        false (ptrOf src t.target_ip_id) false).2 a b = lenFor outdb a b := by
      unfold lenFor
      rw [htxs a b]
    rw [hl]

/-- Master induction: ingesting a batch adds, for every value pair,
exactly its number of occurrences to the pair's total, and a pair has a
row afterwards exactly when it had one before or occurs in the batch. -/
lemma runPairsFrom_effect (dns arp : String → Option String)
    (ps : List (String × String)) :
    ∀ db : DB, DBInv db →
      DBInv (runPairsFrom dns arp db ps) ∧
      (∀ a b, sumFor (runPairsFrom dns arp db ps) a b =
        sumFor db a b + occCount ps a b) ∧
      (∀ a b, lenFor (runPairsFrom dns arp db ps) a b =
        (if (a, b) ∈ ps then 1 else lenFor db a b)) := by
  induction ps with
  | nil =>
    intro db hinv
    refine ⟨hinv, ?_, ?_⟩
    · intro a b
      simp [runPairsFrom, occCount]
    · intro a b
      simp [runPairsFrom]
  | cons p ps ih =>
    intro db hinv
    obtain ⟨x, y⟩ := p
    have hstep := handle_pair_effect dns arp x y db hinv
    have hrun : runPairsFrom dns arp db ((x, y) :: ps) =
        runPairsFrom dns arp (handle_pair dns arp false false db (x, y)) ps :=
      rfl
    obtain ⟨ihInv, ihSum, ihLen⟩ :=
      ih (handle_pair dns arp false false db (x, y)) hstep.1
    rw [hrun]
    refine ⟨ihInv, ?_, ?_⟩
    · intro a b
      rw [ihSum a b, hstep.2.1 a b]
      have hocc : occCount ((x, y) :: ps) a b =
          occCount ps a b + (if x = a ∧ y = b then 1 else 0) := by
        by_cases h : x = a ∧ y = b <;>
          simp [occCount, List.countP_cons, h]
      rw [hocc]
      omega
    · intro a b
      rw [ihLen a b, hstep.2.2 a b]
      by_cases hmem : (a, b) ∈ ps
      · rw [if_pos hmem, if_pos (List.mem_cons_of_mem _ hmem)]
      · rw [if_neg hmem]
        by_cases hxy : x = a ∧ y = b
        · rw [if_pos hxy, if_pos (by
            rw [List.mem_cons]
            exact Or.inl (Prod.ext hxy.1.symm hxy.2.symm))]
        · rw [if_neg hxy, if_neg (by
            rw [List.mem_cons]
            rintro (h | h)
            · exact hxy ⟨(congrArg Prod.fst h).symm, (congrArg Prod.snd h).symm⟩
            · exact hmem h)]

lemma occCount_replicate (n : Nat) (a b : String) :
    occCount (List.replicate n (a, b)) a b = n := by
  induction n with
  | zero => rfl
  | succ m ih =>
    unfold occCount at ih ⊢
    rw [List.replicate_succ, List.countP_cons, ih]
    simp

lemma filterMap_unpack_replicate (n : Nat) (A B : String) :
    (List.replicate n (Packet.arp 1 A B)).filterMap unpack_packet =
      List.replicate n (A, B) := by
  induction n with
  | zero => rfl
  | succ m ih =>
    rw [List.replicate_succ, List.replicate_succ, List.filterMap_cons]
    simp [unpack_packet, ih]

/-! ### Claim theorems for the Entity Registry and Enrichment Services -/

/-- C1: processing `n ≥ 1` identical accepted `(A, B)` WHO-HAS events
through `handle_packets` against the same session yields exactly one
transaction for the value pair `(A, B)` with count exactly `n`; each
ingested event adds exactly 1 to its own pair (so the first creates the
row with count 1 and every later one increments by 1); and for every
batch, every value pair has at most one transaction row, whose count is
the pair's number of occurrences in the batch. -/
theorem eavesarp_C1 :
    (∀ dns arp : String → Option String, ∀ intf : Option String,
      ∀ n : Nat, ∀ A B : String, 1 ≤ n →
      handle_packets dns arp (List.replicate n (Packet.arp 1 A B)) emptyDB
          false false intf =
        Except.ok (runPairs dns arp (List.replicate n (A, B))) ∧
      sumFor (runPairs dns arp (List.replicate n (A, B))) A B = n ∧
      lenFor (runPairs dns arp (List.replicate n (A, B))) A B = 1) ∧
    (∀ dns arp : String → Option String, ∀ db : DB, ∀ x y : String,
      DBInv db →
      sumFor (handle_pair dns arp false false db (x, y)) x y =
        sumFor db x y + 1 ∧
      lenFor (handle_pair dns arp false false db (x, y)) x y = 1) ∧
    (∀ dns arp : String → Option String,
      ∀ ps : List (String × String), ∀ a b : String,
      lenFor (runPairs dns arp ps) a b ≤ 1 ∧
      sumFor (runPairs dns arp ps) a b = occCount ps a b) := by
  refine ⟨?_, ?_, ?_⟩
  · intro dns arp intf n A B hn
    have heff := runPairsFrom_effect dns arp (List.replicate n (A, B))
      emptyDB DBInv_empty
    refine ⟨?_, ?_, ?_⟩
    · unfold handle_packets
      rw [if_neg (by simp), filterMap_unpack_replicate]
      rfl
    · have h := heff.2.1 A B
      rw [show runPairs dns arp (List.replicate n (A, B)) =
          runPairsFrom dns arp emptyDB (List.replicate n (A, B)) from rfl, h,
        occCount_replicate]
      show (0 : Nat) + n = n
      omega
    · have h := heff.2.2 A B
      rw [show runPairs dns arp (List.replicate n (A, B)) =
          runPairsFrom dns arp emptyDB (List.replicate n (A, B)) from rfl, h,
        if_pos (List.mem_replicate.mpr ⟨Nat.one_le_iff_ne_zero.mp hn, rfl⟩)]
  · intro dns arp db x y hinv
    have hstep := handle_pair_effect dns arp x y db hinv
    constructor
    · rw [hstep.2.1 x y, if_pos ⟨rfl, rfl⟩]
    · rw [hstep.2.2 x y, if_pos ⟨rfl, rfl⟩]
  · intro dns arp ps a b
    have heff := runPairsFrom_effect dns arp ps emptyDB DBInv_empty
    constructor
    · rw [show runPairs dns arp ps = runPairsFrom dns arp emptyDB ps from rfl,
        heff.2.2 a b]
      by_cases hmem : (a, b) ∈ ps
      · rw [if_pos hmem]
      · rw [if_neg hmem]
        exact Nat.zero_le 1
    · rw [show runPairs dns arp ps = runPairsFrom dns arp emptyDB ps from rfl,
        heff.2.1 a b]
      show (0 : Nat) + occCount ps a b = occCount ps a b
      omega

theorem eavesarp_C1_witness :
    (1 ≤ 3) ∧
    sumFor (runPairs (fun _ => none) (fun _ => none)
      (List.replicate 3 ("10.0.0.1", "10.0.0.2"))) "10.0.0.1" "10.0.0.2" = 3 ∧
    lenFor (runPairs (fun _ => none) (fun _ => none)
      (List.replicate 3 ("10.0.0.1", "10.0.0.2"))) "10.0.0.1" "10.0.0.2" = 1 :=
  ⟨by decide,
   (eavesarp_C1.1 (fun _ => none) (fun _ => none) none 3 "10.0.0.1" "10.0.0.2"
     (by decide)).2.1,
   (eavesarp_C1.1 (fun _ => none) (fun _ => none) none 3 "10.0.0.1" "10.0.0.2"
     (by decide)).2.2⟩

/-- C2: `get_or_create_ip` is idempotent in the address value: an
immediate second call with an equal address (any oracles, any options)
returns the very same entity and leaves the store untouched, and after
the call the store holds no two ip rows with the same value. -/
theorem eavesarp_C2 (dns₁ arp₁ dns₂ arp₂ : String → Option String)
    (a : String) (db : DB) (res₁ act₁ res₂ act₂ : Bool)
    (ptr₁ ptr₂ : Option String) (hinv : DBInv db) :
    get_or_create_ip dns₂ arp₂ a
        (get_or_create_ip dns₁ arp₁ a db res₁ ptr₁ act₁).2 res₂ ptr₂ act₂ =
      get_or_create_ip dns₁ arp₁ a db res₁ ptr₁ act₁ ∧
    (valuesOf (get_or_create_ip dns₁ arp₁ a db res₁ ptr₁ act₁).2).Nodup :=
  ⟨goc_idem dns₁ arp₁ dns₂ arp₂ a db res₁ act₁ res₂ act₂ ptr₁ ptr₂ hinv,
   goc_values_nodup dns₁ arp₁ a db res₁ ptr₁ act₁ hinv⟩

theorem eavesarp_C2_witness :
    DBInv emptyDB ∧
    (get_or_create_ip (fun _ => none) (fun _ => none) "10.0.0.1"
        (get_or_create_ip (fun _ => none) (fun _ => none) "10.0.0.1" emptyDB
          false none false).2 false none false =
      get_or_create_ip (fun _ => none) (fun _ => none) "10.0.0.1" emptyDB
        false none false ∧
    (valuesOf (get_or_create_ip (fun _ => none) (fun _ => none) "10.0.0.1"
        emptyDB false none false).2).Nodup) :=
  ⟨DBInv_empty,
   eavesarp_C2 (fun _ => none) (fun _ => none) (fun _ => none) (fun _ => none)
     "10.0.0.1" emptyDB false false false false none none DBInv_empty⟩

/-- C5: the ARP liveness probe runs only on the entity-creation path.
(1) When the address already has a row, the call is a pure lookup for any
probe oracle — no state change, so no probe is ever re-attempted for an
address already in the session store.
(2) On the creation path with `active`, the new row has
`arp_resolve_attempted = true` and `mac_address = arp a` — the MAC is
recorded exactly when the probe answers, and it is this row that the
store now holds for the address.
(3) `arp_resolve_attempted` is monotonic: a row that has it `true` keeps
it `true` across any further `get_or_create_ip` call. -/
theorem eavesarp_C5 :
    (∀ dns arp : String → Option String, ∀ a : String, ∀ db : DB,
      ∀ res act : Bool, ∀ ptr : Option String, ∀ r : IP,
      findByValue db a = some r →
        get_or_create_ip dns arp a db res ptr act = (r, db)) ∧
    (∀ dns arp : String → Option String, ∀ a : String, ∀ db : DB,
      ∀ res : Bool, DBInv db → findByValue db a = none →
        (get_or_create_ip dns arp a db res none true).1.arp_resolve_attempted
            = true ∧
        (get_or_create_ip dns arp a db res none true).1.mac_address = arp a ∧
        findByValue (get_or_create_ip dns arp a db res none true).2 a =
          some (get_or_create_ip dns arp a db res none true).1) ∧
    (∀ dns arp : String → Option String, ∀ a v : String, ∀ db : DB,
      ∀ res act : Bool, ∀ ptr : Option String, ∀ r : IP,
      DBInv db → findByValue db v = some r → r.arp_resolve_attempted = true →
        ∃ r', findByValue (get_or_create_ip dns arp a db res ptr act).2 v
            = some r' ∧ r'.arp_resolve_attempted = true) := by
  refine ⟨?_, ?_, ?_⟩
  · intro dns arp a db res act ptr r h
    exact goc_found dns arp a db res ptr act r h
  · intro dns arp a db res hinv h
    rw [goc_new dns arp a db res none true hinv h]
    refine ⟨rfl, rfl, ?_⟩
    have := goc_new_find dns arp a db res none true hinv h
    rw [goc_new dns arp a db res none true hinv h] at this
    exact this
  · intro dns arp a v db res act ptr r hinv h hr
    cases hf : findByValue db a with
    | some q =>
      rw [goc_found dns arp a db res ptr act q hf]
      exact ⟨r, h, hr⟩
    | none =>
      rw [goc_new dns arp a db res ptr act hinv hf]
      refine ⟨r, ?_, hr⟩
      unfold findByValue at h ⊢
      exact find?_append_some _ h _

theorem eavesarp_C5_witness :
    (findByValue emptyDB "10.0.0.9" = none) ∧
    ((get_or_create_ip (fun _ => none) (fun _ => none) "10.0.0.9" emptyDB
        false none true).1.arp_resolve_attempted = true ∧
     (get_or_create_ip (fun _ => none) (fun _ => none) "10.0.0.9" emptyDB
        false none true).1.mac_address = none) :=
  ⟨rfl,
   (eavesarp_C5.2.1 (fun _ => none) (fun _ => none) "10.0.0.9" emptyDB false
      DBInv_empty rfl).1,
   (eavesarp_C5.2.1 (fun _ => none) (fun _ => none) "10.0.0.9" emptyDB false
      DBInv_empty rfl).2.1⟩

/-- C6: reverse-name resolution happens only immediately after entity
creation.
(1) When the address already has a row, the call is a pure lookup for any
resolver oracle — nothing persisted, resolution not re-attempted.
(2) On the creation path with `resolve` requested, exactly one PTR record
is persisted when the resolver answers, and nothing when it fails.
(3) After the creating call, any later call for the same address is a
pure lookup (no retry within the session). -/
theorem eavesarp_C6 :
    (∀ dns arp : String → Option String, ∀ a : String, ∀ db : DB,
      ∀ res act : Bool, ∀ ptr : Option String, ∀ r : IP,
      findByValue db a = some r →
        get_or_create_ip dns arp a db res ptr act = (r, db)) ∧
    (∀ dns arp : String → Option String, ∀ a : String, ∀ db : DB,
      ∀ act : Bool, DBInv db → findByValue db a = none →
        (get_or_create_ip dns arp a db true none act).2.ptrs =
          db.ptrs ++ (match dns a with
            | some p => [⟨db.nextId, p⟩]
            | none => [])) ∧
    (∀ dns₁ arp₁ dns₂ arp₂ : String → Option String, ∀ a : String,
      ∀ db : DB, ∀ res₁ act₁ res₂ act₂ : Bool, ∀ ptr₁ ptr₂ : Option String,
      DBInv db →
        get_or_create_ip dns₂ arp₂ a
            (get_or_create_ip dns₁ arp₁ a db res₁ ptr₁ act₁).2 res₂ ptr₂ act₂
          = get_or_create_ip dns₁ arp₁ a db res₁ ptr₁ act₁) := by
  refine ⟨?_, ?_, ?_⟩
  · intro dns arp a db res act ptr r h
    exact goc_found dns arp a db res ptr act r h
  · intro dns arp a db act hinv h
    rw [goc_new dns arp a db true none act hinv h]
    cases hdns : dns a with
    | some p => simp [ptrDelta, hdns]
    | none => simp [ptrDelta, hdns]
  · intro dns₁ arp₁ dns₂ arp₂ a db res₁ act₁ res₂ act₂ ptr₁ ptr₂ hinv
    exact goc_idem dns₁ arp₁ dns₂ arp₂ a db res₁ act₁ res₂ act₂ ptr₁ ptr₂ hinv

theorem eavesarp_C6_witness :
    (findByValue emptyDB "10.0.0.7" = none) ∧
    ((get_or_create_ip (fun _ => some "host.example.") (fun _ => none)
        "10.0.0.7" emptyDB true none false).2.ptrs = [⟨0, "host.example."⟩]) ∧
    ((get_or_create_ip (fun _ => none) (fun _ => none)
        "10.0.0.7" emptyDB true none false).2.ptrs = []) :=
  ⟨rfl,
   eavesarp_C6.2.1 (fun _ => some "host.example.") (fun _ => none) "10.0.0.7"
     emptyDB false DBInv_empty rfl,
   eavesarp_C6.2.1 (fun _ => none) (fun _ => none) "10.0.0.7"
     emptyDB false DBInv_empty rfl⟩

/-! ### Claim theorems for the Merge Engine -/

/-- C3 counterexample: the claim says merging the source ledger
`{(A,B):2}` twice into the destination `{(A,B):3}` yields count 8; the
code yields 3 + 2 + 2 = 7. -/
theorem eavesarp_C3_counterexample :
    sumFor (merge_sqlite (fun _ => none) (fun _ => none)
      (runPairs (fun _ => none) (fun _ => none) [("A", "B"), ("A", "B")])
      (merge_sqlite (fun _ => none) (fun _ => none)
        (runPairs (fun _ => none) (fun _ => none) [("A", "B"), ("A", "B")])
        (runPairs (fun _ => none) (fun _ => none)
          [("A", "B"), ("A", "B"), ("A", "B")]))) "A" "B" = 7 ∧
    (7 : Nat) ≠ 8 := by
  constructor
  · rfl
  · decide

/-- C3 (amended): each merged source transaction adds its count to the
destination row for the same value pair, creating the row with the source
count when absent — so merge is not idempotent; merging `{(A,B):2}` into
`{(A,B):3}` yields 5, and merging the same source a second time yields 7
(3 + 2 + 2), not 8. -/
theorem eavesarp_C3 :
    (∀ dns arp : String → Option String, ∀ src outdb : DB,
      ∀ t : Transaction, DBInv outdb →
      (∀ a b, sumFor (merge_transaction dns arp src outdb t) a b =
        sumFor outdb a b +
          (if (ipOfIdD src t.sender_ip_id).value = a ∧
              (ipOfIdD src t.target_ip_id).value = b then t.count else 0)) ∧
      (∀ a b, lenFor (merge_transaction dns arp src outdb t) a b =
        (if (ipOfIdD src t.sender_ip_id).value = a ∧
            (ipOfIdD src t.target_ip_id).value = b then 1
         else lenFor outdb a b))) ∧
    sumFor (merge_sqlite (fun _ => none) (fun _ => none)
      (runPairs (fun _ => none) (fun _ => none) [("A", "B"), ("A", "B")])
      (runPairs (fun _ => none) (fun _ => none)
        [("A", "B"), ("A", "B"), ("A", "B")])) "A" "B" = 5 ∧
    sumFor (merge_sqlite (fun _ => none) (fun _ => none)
      (runPairs (fun _ => none) (fun _ => none) [("A", "B"), ("A", "B")])
      (merge_sqlite (fun _ => none) (fun _ => none)
        (runPairs (fun _ => none) (fun _ => none) [("A", "B"), ("A", "B")])
        (runPairs (fun _ => none) (fun _ => none)
          [("A", "B"), ("A", "B"), ("A", "B")]))) "A" "B" = 7 := by
  refine ⟨?_, rfl, rfl⟩
  intro dns arp src outdb t hinv
  have h := merge_transaction_effect dns arp src outdb t hinv
  exact ⟨h.2.1, h.2.2⟩

theorem eavesarp_C3_witness :
    DBInv emptyDB ∧
    sumFor (merge_transaction (fun _ => none) (fun _ => none) emptyDB emptyDB
        ⟨0, 0, 5⟩) "" "" =
      sumFor emptyDB "" "" +
        (if (ipOfIdD emptyDB (Transaction.mk 0 0 5).sender_ip_id).value = "" ∧
            (ipOfIdD emptyDB (Transaction.mk 0 0 5).target_ip_id).value = ""
         then (Transaction.mk 0 0 5).count else 0) :=
  ⟨DBInv_empty,
   ((eavesarp_C3.1 (fun _ => none) (fun _ => none) emptyDB emptyDB
     ⟨0, 0, 5⟩ DBInv_empty).1 "" "")⟩

/-! ### Claim theorems for offline import error handling -/

/-- C9: an offline import whose input file does not exist fails fast with
the explicit "File not found" error; the loader is never invoked (the
result is independent of it), so no record of that source is processed
and the destination ledger receives nothing from it. -/
theorem eavesarp_C9 :
    ∀ (exists_file : String → Bool) (load load' : String → DB → DB)
      (fname : String) (db : DB),
      exists_file fname = false →
      import_offline_source exists_file load fname db =
        Except.error ("File not found: " ++ fname) ∧
      import_offline_source exists_file load fname db =
        import_offline_source exists_file load' fname db := by
  intro exists_file load load' fname db h
  constructor <;>
    · unfold import_offline_source validate_file_presence
      rw [h]
      simp

theorem eavesarp_C9_witness :
    ((fun _ : String => false) "capture.db" = false) ∧
    import_offline_source (fun _ => false)
        (fun _ db => db) "capture.db" emptyDB =
      Except.error ("File not found: " ++ "capture.db") :=
  ⟨rfl,
   (eavesarp_C9 (fun _ => false) (fun _ db => db) (fun _ db => db)
     "capture.db" emptyDB rfl).1⟩

/-! ### Claim theorems for the Allow/Deny filter -/

lemma goc_values_cases (dns arp : String → Option String) (a : String)
    (db : DB) (res : Bool) (ptr : Option String) (act : Bool)
    (hinv : DBInv db) :
    valuesOf (get_or_create_ip dns arp a db res ptr act).2 = valuesOf db ∨
    valuesOf (get_or_create_ip dns arp a db res ptr act).2 =
      valuesOf db ++ [a] := by
  cases hf : findByValue db a with
  | some r =>
    rw [goc_found dns arp a db res ptr act r hf]
    exact Or.inl rfl
  | none =>
    rw [goc_new dns arp a db res ptr act hinv hf]
    right
    show (db.ips ++ [newIpRow arp a act db.nextId]).map IP.value =
      valuesOf db ++ [a]
    rw [List.map_append]
    simp [newIpRow_value, valuesOf]

lemma record_tx_ips (db2 : DB) (sid tid k : Nat) :
    (record_tx db2 sid tid k).ips = db2.ips := by
  unfold record_tx
  cases db2.transactions.find? (fun tr =>
    tr.sender_ip_id == sid && tr.target_ip_id == tid) <;> rfl

lemma handle_pair_values (dns arp : String → Option String) (x y : String)
    (db : DB) (hinv : DBInv db) :
    ∀ v ∈ valuesOf (handle_pair dns arp false false db (x, y)),
      v ∈ valuesOf db ∨ v = x ∨ v = y := by
  intro v hv
  have hinv1 := DBInv_goc dns arp x db false none false hinv
  have hrec : valuesOf (handle_pair dns arp false false db (x, y)) =
      valuesOf (get_or_create_ip dns arp y
        (get_or_create_ip dns arp x db false none false).2
        false none false).2 := by
    unfold valuesOf
    rw [show (handle_pair dns arp false false db (x, y)).ips =
      (get_or_create_ip dns arp y
        (get_or_create_ip dns arp x db false none false).2
        false none false).2.ips from record_tx_ips _ _ _ _]
  rw [hrec] at hv
  rcases goc_values_cases dns arp y
      (get_or_create_ip dns arp x db false none false).2
      false none false hinv1 with h2 | h2 <;>
    rcases goc_values_cases dns arp x db false none false hinv with
      h1 | h1 <;>
    rw [h2, h1] at hv
  · exact Or.inl hv
  · rcases List.mem_append.mp hv with h | h
    · exact Or.inl h
    · exact Or.inr (Or.inl (List.mem_singleton.mp h))
  · rcases List.mem_append.mp hv with h | h
    · exact Or.inl h
    · exact Or.inr (Or.inr (List.mem_singleton.mp h))
  · rcases List.mem_append.mp hv with h | h
    · rcases List.mem_append.mp h with h' | h'
      · exact Or.inl h'
      · exact Or.inr (Or.inl (List.mem_singleton.mp h'))
    · exact Or.inr (Or.inr (List.mem_singleton.mp h))

lemma runPairsFrom_values (dns arp : String → Option String)
    (ps : List (String × String)) :
    ∀ db : DB, DBInv db →
      ∀ v ∈ valuesOf (runPairsFrom dns arp db ps),
        v ∈ valuesOf db ∨ ∃ p ∈ ps, v = p.1 ∨ v = p.2 := by
  induction ps with
  | nil =>
    intro db _ v hv
    exact Or.inl hv
  | cons p ps ih =>
    intro db hinv v hv
    obtain ⟨x, y⟩ := p
    have hstep := handle_pair_effect dns arp x y db hinv
    rcases ih (handle_pair dns arp false false db (x, y)) hstep.1 v hv with
      h | h
    · rcases handle_pair_values dns arp x y db hinv v h with h' | h' | h'
      · exact Or.inl h'
      · exact Or.inr ⟨(x, y), List.mem_cons_self _ _, Or.inl h'⟩
      · exact Or.inr ⟨(x, y), List.mem_cons_self _ _, Or.inr h'⟩
    · obtain ⟨q, hq, hvq⟩ := h
      exact Or.inr ⟨q, List.mem_cons_of_mem _ hq, hvq⟩

lemma ipValueOf_ne_of_not_mem {db : DB} {X : String}
    (h : X ∉ valuesOf db) (i : Nat) : ipValueOf db i ≠ some X := by
  intro hc
  obtain ⟨r, hr, _, hrv⟩ := ipValueOf_some_facts hc
  exact h (List.mem_map.mpr ⟨r, hr, hrv⟩)

lemma filter_packet_checks (L M : CheckLists) (q : Packet)
    (pr : String × String)
    (h : filter_packet (some L) (some M) q = some pr) :
    L.check pr.1 = true ∧ M.check pr.2 = true ∧
      unpack_packet q = some pr := by
  cases q with
  | other => simp [filter_packet, validate_packet] at h
  | arp op s t =>
    simp only [filter_packet, validate_packet] at h
    by_cases hop : (op == 1) = true
    · rw [if_pos hop] at h
      by_cases hL : L.check s = true
      · by_cases hM : M.check t = true
        · simp only [hL, hM, Bool.not_true, Bool.false_eq_true, if_false,
            Option.some.injEq] at h
          rw [← h]
          exact ⟨hL, hM, rfl⟩
        · rw [Bool.not_eq_true] at hM
          simp [hL, hM] at h
      · rw [Bool.not_eq_true] at hL
        simp [hL] at h
    · rw [if_neg hop] at h
      simp at h

/-- C8 counterexample: even with allow/deny lists configured that reject
`X` in both roles, the pcap-import branch of `analyze` calls
`filter_packet` with its default `None` lists (only the ARP WHO-HAS check
applies), so importing a capture holding the event `(X, B)` creates the
`X` entity and its transaction in the output ledger. -/
theorem eavesarp_C8_counterexample :
    ((CheckLists.mk (fun v => !(v == "X"))).check "X" = false) ∧
    analyze_pcap (fun _ => none) (fun _ => none) [Packet.arp 1 "X" "B"]
        emptyDB =
      Except.ok (runPairs (fun _ => none) (fun _ => none) [("X", "B")]) ∧
    "X" ∈ valuesOf (runPairs (fun _ => none) (fun _ => none) [("X", "B")]) ∧
    lenFor (runPairs (fun _ => none) (fun _ => none) [("X", "B")]) "X" "B"
      = 1 := by
  refine ⟨rfl, rfl, ?_, rfl⟩
  decide

/-- C8 (amended): for live capture the guarantee holds — when the
configured sender and target lists both reject `X`, the database built
from the sniffed-and-filtered packets holds no entity valued `X` and no
transaction endpoint resolving to `X`.  For offline pcap import the
filter is applied without the lists (second conjunct: the `analyze` pcap
branch re-validates with `filter_packet`'s default `None` lists, i.e.
only the ARP WHO-HAS check), so rejected addresses can still be ingested
there and are excluded only at render time. -/
theorem eavesarp_C8 :
    (∀ dns arp : String → Option String, ∀ L M : CheckLists, ∀ X : String,
      ∀ packets : List Packet, ∀ intf : Option String,
      L.check X = false → M.check X = false →
      handle_packets dns arp (do_sniff (some L) (some M) packets) emptyDB
          false false intf =
        Except.ok (runPairsFrom dns arp emptyDB
          ((do_sniff (some L) (some M) packets).filterMap unpack_packet)) ∧
      X ∉ valuesOf (runPairsFrom dns arp emptyDB
          ((do_sniff (some L) (some M) packets).filterMap unpack_packet)) ∧
      (∀ i, ipValueOf (runPairsFrom dns arp emptyDB
          ((do_sniff (some L) (some M) packets).filterMap unpack_packet)) i ≠
        some X)) ∧
    (∀ dns arp : String → Option String, ∀ pcap_packets : List Packet,
      ∀ outdb : DB,
      analyze_pcap dns arp pcap_packets outdb =
        handle_packets dns arp (pcap_packets.filter
          (fun p => (filter_packet none none p).isSome)) outdb
          false false none) := by
  constructor
  · intro dns arp L M X packets intf hL hM
    have hnotmem : X ∉ valuesOf (runPairsFrom dns arp emptyDB
        ((do_sniff (some L) (some M) packets).filterMap unpack_packet)) := by
      intro hmem
      rcases runPairsFrom_values dns arp _ emptyDB DBInv_empty X hmem with
        h | h
      · simp [valuesOf, emptyDB] at h
      · obtain ⟨p, hp, hXp⟩ := h
        obtain ⟨q, hq, hunp⟩ := List.mem_filterMap.mp hp
        have hq' := List.mem_filter.mp hq
        obtain ⟨pr, hpr⟩ := Option.isSome_iff_exists.mp hq'.2
        obtain ⟨hcheckL, hcheckM, hunp'⟩ := filter_packet_checks L M q pr hpr
        have hppr : p = pr := by
          rw [hunp] at hunp'
          injection hunp' with h
        rcases hXp with h' | h'
        · rw [h', hppr] at hL
          rw [hcheckL] at hL
          cases hL
        · rw [h', hppr] at hM
          rw [hcheckM] at hM
          cases hM
    refine ⟨?_, hnotmem, fun i => ipValueOf_ne_of_not_mem hnotmem i⟩
    unfold handle_packets
    rw [if_neg (by simp)]
    rfl
  · intro dns arp pcap_packets outdb
    rfl

theorem eavesarp_C8_witness :
    ((CheckLists.mk (fun v => !(v == "X"))).check "X" = false) ∧
    "X" ∉ valuesOf (runPairsFrom (fun _ => none) (fun _ => none) emptyDB
      ((do_sniff (some (CheckLists.mk (fun v => !(v == "X"))))
          (some (CheckLists.mk (fun v => !(v == "X"))))
          [Packet.arp 1 "X" "B", Packet.arp 1 "A" "B"]).filterMap
        unpack_packet)) :=
  ⟨rfl,
   (eavesarp_C8.1 (fun _ => none) (fun _ => none)
     (CheckLists.mk (fun v => !(v == "X")))
     (CheckLists.mk (fun v => !(v == "X"))) "X"
     [Packet.arp 1 "X" "B", Packet.arp 1 "A" "B"] none rfl rfl).2.1⟩

/-! ### Claim theorems for the Report Builder -/

lemma insertByCountDesc_length (t : Transaction) (l : List Transaction) :
    (insertByCountDesc t l).length = l.length + 1 := by
  induction l with
  | nil => rfl
  | cons u rest ih =>
    unfold insertByCountDesc
    by_cases h : u.count < t.count
    · rw [if_pos h]
      rfl
    · rw [if_neg h]
      simp [ih]

lemma sortByCountDesc_length (ts : List Transaction) :
    (sortByCountDesc ts).length = ts.length := by
  suffices h : ∀ acc : List Transaction,
      (ts.foldl (fun acc t => insertByCountDesc t acc) acc).length =
        acc.length + ts.length by
    have := h []
    simpa [sortByCountDesc] using this
  induction ts with
  | nil => intro acc; rfl
  | cons u rest ih =>
    intro acc
    rw [List.foldl_cons, ih (insertByCountDesc u acc),
      insertByCountDesc_length]
    simp only [List.length_cons]
    omega

lemma mem_insertByCountDesc {v t : Transaction} {l : List Transaction} :
    v ∈ insertByCountDesc t l ↔ v = t ∨ v ∈ l := by
  induction l with
  | nil => simp [insertByCountDesc]
  | cons u rest ih =>
    unfold insertByCountDesc
    by_cases h : u.count < t.count
    · rw [if_pos h]
      simp only [List.mem_cons]
    · rw [if_neg h]
      simp only [List.mem_cons, ih]
      tauto

lemma mem_sortByCountDesc {v : Transaction} {ts : List Transaction}
    (h : v ∈ sortByCountDesc ts) : v ∈ ts := by
  suffices hgen : ∀ acc : List Transaction,
      v ∈ ts.foldl (fun acc t => insertByCountDesc t acc) acc →
        v ∈ acc ∨ v ∈ ts by
    rcases hgen [] h with h' | h'
    · cases h'
    · exact h'
  clear h
  induction ts with
  | nil =>
    intro acc h'
    exact Or.inl h'
  | cons u rest ih =>
    intro acc h'
    rw [List.foldl_cons] at h'
    rcases ih (insertByCountDesc u acc) h' with h'' | h''
    · rcases mem_insertByCountDesc.mp h'' with h3 | h3
      · exact Or.inr (h3 ▸ List.mem_cons_self _ _)
      · exact Or.inl h3
    · exact Or.inr (List.mem_cons_of_mem _ h'')

lemma rdStep_skip (db : DB) (sl tl : Option CheckLists)
    (cp : Option ColorProfile) (res act : Bool)
    (rd : List (String × List (List String))) (t : Transaction)
    (h : acceptedTx db sl tl t = false) :
    rdStep db sl tl cp res act rd t = rd := by
  unfold acceptedTx at h
  unfold rdStep
  cases sl with
  | none =>
    cases tl with
    | none => simp at h
    | some M =>
      simp only [Bool.not_false, Bool.true_and, Bool.not_not] at h
      simp [h]
  | some L =>
    cases tl with
    | none =>
      simp only [Bool.not_false, Bool.and_true, Bool.not_not] at h
      simp [h]
    | some M =>
      simp only [Bool.not_not, Bool.and_eq_false_iff] at h
      rcases h with h | h
      · simp [h]
      · by_cases hL : L.check (ipOfIdD db t.sender_ip_id).value = true
        · simp [hL, h]
        · have hL' := Bool.eq_false_iff.mpr hL
          simp [hL', h]

lemma get_output_of_empty (db : DB) (sl tl : Option CheckLists)
    (cp : Option ColorProfile) (res act : Bool)
    (h : db.transactions = []) :
    get_output db sl tl cp res act = Output.msg noRecordsMsg := by
  unfold get_output
  rw [h]
  rfl

lemma get_output_of_nonempty (db : DB) (sl tl : Option CheckLists)
    (cp : Option ColorProfile) (res act : Bool)
    (h : db.transactions ≠ []) :
    get_output db sl tl cp res act =
      Output.table (buildHeaders cp res act)
        (restructure cp ((sortByCountDesc db.transactions).foldl
          (rdStep db sl tl cp res act) [])) := by
  have hne : sortByCountDesc db.transactions ≠ [] := by
    intro hc
    have hlen := sortByCountDesc_length db.transactions
    rw [hc] at hlen
    exact h (List.length_eq_zero.mp hlen.symm)
  have he : (sortByCountDesc db.transactions).isEmpty = false := by
    cases hna : sortByCountDesc db.transactions with
    | nil => exact absurd hna hne
    | cons a l => rfl
  unfold get_output
  show (if (sortByCountDesc db.transactions).isEmpty = true
      then Output.msg noRecordsMsg
      else Output.table (buildHeaders cp res act)
        (restructure cp (List.foldl (rdStep db sl tl cp res act) []
          (sortByCountDesc db.transactions)))) = _
  rw [if_neg (by simp [he])]

/-- C10: `get_output` returns the fixed no-records message exactly when
the transaction table is empty; when transactions exist but the
render-time sender/target lists exclude every one of them, it instead
returns a table with headers and zero data rows. -/
theorem eavesarp_C10 :
    (∀ db : DB, ∀ sl tl : Option CheckLists, ∀ cp : Option ColorProfile,
      ∀ res act : Bool,
      (get_output db sl tl cp res act = Output.msg noRecordsMsg ↔
        db.transactions = [])) ∧
    (∀ db : DB, ∀ sl tl : Option CheckLists, ∀ cp : Option ColorProfile,
      ∀ res act : Bool, db.transactions ≠ [] →
      (∀ t ∈ db.transactions, acceptedTx db sl tl t = false) →
      get_output db sl tl cp res act =
        Output.table (buildHeaders cp res act) []) := by
  constructor
  · intro db sl tl cp res act
    constructor
    · intro h
      by_cases hts : db.transactions = []
      · exact hts
      · rw [get_output_of_nonempty db sl tl cp res act hts] at h
        cases h
    · intro h
      exact get_output_of_empty db sl tl cp res act h
  · intro db sl tl cp res act hts hrej
    rw [get_output_of_nonempty db sl tl cp res act hts]
    have hfold : ∀ (l : List Transaction), (∀ t ∈ l, t ∈ db.transactions) →
        ∀ rd, l.foldl (rdStep db sl tl cp res act) rd = rd := by
      intro l
      induction l with
      | nil => intro _ rd; rfl
      | cons u rest ih =>
        intro hsub rd
        rw [List.foldl_cons,
          rdStep_skip db sl tl cp res act rd u
            (hrej u (hsub u (List.mem_cons_self _ _)))]
        exact ih (fun t ht => hsub t (List.mem_cons_of_mem _ ht)) rd
    rw [hfold (sortByCountDesc db.transactions)
      (fun t ht => mem_sortByCountDesc ht) []]
    rfl

theorem eavesarp_C10_witness :
    ((runPairs (fun _ => none) (fun _ => none) [("A", "B")]).transactions
      ≠ []) ∧
    (∀ t ∈ (runPairs (fun _ => none) (fun _ => none)
        [("A", "B")]).transactions,
      acceptedTx (runPairs (fun _ => none) (fun _ => none) [("A", "B")])
        (some (CheckLists.mk (fun _ => false))) none t = false) ∧
    get_output (runPairs (fun _ => none) (fun _ => none) [("A", "B")])
        (some (CheckLists.mk (fun _ => false))) none none false false =
      Output.table (buildHeaders none false false) [] :=
  ⟨by decide, by decide,
   eavesarp_C10.2 (runPairs (fun _ => none) (fun _ => none) [("A", "B")])
     (some (CheckLists.mk (fun _ => false))) none none false false
     (by decide) (by decide)⟩

/-- C7: with liveness mode on (`active`), a data row's flag cell (index
2, after sender and target) is exactly `sploit_char` of the row's target
entity, and with no color profile that flag is non-empty precisely when
the target was probed (`arp_resolve_attempted`) and has no recorded MAC;
end-to-end, probing target `D` with an unanswered probe renders the `X`
flag in its row and leaves `mac_address` unset. -/
theorem eavesarp_C7 :
    (∀ db : DB, ∀ cp : Option ColorProfile, ∀ res ns : Bool,
      ∀ t : Transaction,
      (transactionRow db cp res true ns t).get? 2 =
        some (sploit_char cp (ipOfIdD db t.target_ip_id))) ∧
    (∀ tgt : IP, sploit_char none tgt ≠ "" ↔
      (tgt.arp_resolve_attempted = true ∧ tgt.mac_address = none)) ∧
    ((handle_packets (fun _ => none) (fun _ => none)
        [Packet.arp 1 "10.0.0.5" "D"] emptyDB false true (some "eth0")).map
      (fun db => get_output db none none none false true) =
      Except.ok (Output.table ["Sender", "Target", "TS", "ARP#"]
        [["10.0.0.5", "D", "X", "1"]])) ∧
    ((handle_packets (fun _ => none) (fun _ => none)
        [Packet.arp 1 "10.0.0.5" "D"] emptyDB false true (some "eth0")).map
      (fun db => findByValue db "D") =
      Except.ok (some ⟨1, "D", none, true⟩)) := by
  refine ⟨?_, ?_, rfl, rfl⟩
  · intro db cp res ns t
    cases ns <;> cases res <;> simp [transactionRow]
  · intro tgt
    cases hm : tgt.mac_address <;> cases ha : tgt.arp_resolve_attempted <;>
      simp [sploit_char, hm, ha]

lemma contains_iff_mem {l : List String} {a : String} :
    l.contains a = true ↔ a ∈ l := by
  simp [List.contains_iff_exists_mem_beq]

lemma rdStep_none_none (db : DB) (cp : Option ColorProfile) (res act : Bool)
    (rd : List (String × List (List String))) (t : Transaction) :
    rdStep db none none cp res act rd t =
      (if rd.any (fun kv => kv.1 == senderValueD db t) then
        rd.map (fun kv =>
          if kv.1 == senderValueD db t then
            (kv.1, kv.2 ++ [transactionRow db cp res act false t]) else kv)
      else rd ++ [(senderValueD db t,
        [transactionRow db cp res act true t])]) := by
  unfold rdStep senderValueD
  cases h : rd.any (fun kv => kv.1 == (ipOfIdD db t.sender_ip_id).value) <;>
    simp [h]

lemma keysInOrder_append_singleton (l : List String) (k : String) :
    keysInOrder (l ++ [k]) =
      if (keysInOrder l).contains k then keysInOrder l
      else keysInOrder l ++ [k] := by
  unfold keysInOrder
  rw [List.foldl_append]
  rfl

lemma mem_keysInOrder {k : String} {l : List String} :
    k ∈ keysInOrder l ↔ k ∈ l := by
  suffices h : ∀ acc : List String,
      (k ∈ l.foldl (fun acc k' =>
        if acc.contains k' then acc else acc ++ [k']) acc ↔
      k ∈ acc ∨ k ∈ l) by
    have := h []
    simpa [keysInOrder] using this
  induction l with
  | nil =>
    intro acc
    simp
  | cons u rest ih =>
    intro acc
    rw [List.foldl_cons,
      ih (if acc.contains u then acc else acc ++ [u])]
    by_cases hc : acc.contains u = true
    · rw [if_pos hc]
      constructor
      · rintro (h | h)
        · exact Or.inl h
        · exact Or.inr (List.mem_cons_of_mem _ h)
      · rintro (h | h)
        · exact Or.inl h
        · rcases List.mem_cons.mp h with rfl | h'
          · exact Or.inl (contains_iff_mem.mp hc)
          · exact Or.inr h'
    · rw [if_neg hc]
      simp only [List.mem_append, List.mem_singleton, List.mem_cons]
      tauto

lemma bucketRows_append_singleton (db : DB) (cp : Option ColorProfile)
    (res act : Bool) (sts : List Transaction) (t : Transaction)
    (h : sts ≠ []) :
    bucketRows db cp res act (sts ++ [t]) =
      bucketRows db cp res act sts ++
        [transactionRow db cp res act false t] := by
  cases sts with
  | nil => exact absurd rfl h
  | cons u rest => simp [bucketRows, List.map_append]

lemma specGroups_any (db : DB) (cp : Option ColorProfile) (res act : Bool)
    (ts : List Transaction) (s : String) :
    (specGroups db cp res act ts).any (fun kv => kv.1 == s) =
      (keysInOrder (ts.map (senderValueD db))).any (fun v => v == s) := by
  unfold specGroups
  induction keysInOrder (ts.map (senderValueD db)) with
  | nil => rfl
  | cons u rest ih =>
    simp only [List.map_cons, List.any_cons, ih]

lemma rdStep_specGroups (db : DB) (cp : Option ColorProfile) (res act : Bool)
    (ts : List Transaction) (t : Transaction) :
    rdStep db none none cp res act (specGroups db cp res act ts) t =
      specGroups db cp res act (ts ++ [t]) := by
  rw [rdStep_none_none]
  by_cases hmem : senderValueD db t ∈ keysInOrder (ts.map (senderValueD db))
  · have hany : (specGroups db cp res act ts).any
        (fun kv => kv.1 == senderValueD db t) = true := by
      rw [specGroups_any, List.any_eq_true]
      exact ⟨senderValueD db t, hmem, by simp⟩
    rw [if_pos hany]
    unfold specGroups
    rw [List.map_map, List.map_append]
    simp only [List.map_cons, List.map_nil]
    rw [keysInOrder_append_singleton, if_pos (contains_iff_mem.mpr hmem)]
    apply List.map_congr_left
    intro s hs
    simp only [Function.comp_apply]
    by_cases hss : s = senderValueD db t
    · subst hss
      rw [if_pos (by simp)]
      rw [List.filter_append,
        show List.filter (fun u =>
            senderValueD db u == senderValueD db t) [t] = [t] from by
          simp [List.filter_cons]]
      rw [bucketRows_append_singleton]
      have hmem' : senderValueD db t ∈ ts.map (senderValueD db) :=
        mem_keysInOrder.mp hmem
      obtain ⟨u, hu, hsvu⟩ := List.mem_map.mp hmem'
      intro hcnil
      have hufil : u ∈ List.filter (fun u =>
          senderValueD db u == senderValueD db t) ts :=
        List.mem_filter.mpr ⟨hu, by simp [hsvu]⟩
      rw [hcnil] at hufil
      cases hufil
    · rw [if_neg (by simp [hss])]
      rw [List.filter_append,
        show List.filter (fun u => senderValueD db u == s) [t] = [] from by
          have hne : (senderValueD db t == s) = false := by
            rw [beq_eq_false_iff_ne]
            exact fun hc => hss hc.symm
          simp [List.filter_cons, hne],
        List.append_nil]
  · have hany : (specGroups db cp res act ts).any
        (fun kv => kv.1 == senderValueD db t) = false := by
      rw [specGroups_any]
      cases h : (keysInOrder (ts.map (senderValueD db))).any
          (fun v => v == senderValueD db t) with
      | false => rfl
      | true =>
        exfalso
        rw [List.any_eq_true] at h
        obtain ⟨v, hv, hbeq⟩ := h
        rw [beq_iff_eq] at hbeq
        exact hmem (hbeq ▸ hv)
    rw [if_neg (by simp [hany])]
    unfold specGroups
    rw [List.map_append]
    simp only [List.map_cons, List.map_nil]
    rw [keysInOrder_append_singleton,
      if_neg (fun hc => hmem (contains_iff_mem.mp hc)), List.map_append]
    congr 1
    · apply List.map_congr_left
      intro s hs
      have hss : senderValueD db t ≠ s := fun hc => hmem (hc ▸ hs)
      rw [List.filter_append,
        show List.filter (fun u => senderValueD db u == s) [t] = [] from by
          have hne : (senderValueD db t == s) = false := by
            rw [beq_eq_false_iff_ne]
            exact hss
          simp [List.filter_cons, hne],
        List.append_nil]
    · have hmem' : senderValueD db t ∉ ts.map (senderValueD db) :=
        fun hc => hmem (mem_keysInOrder.mpr hc)
      simp only [List.map_cons, List.map_nil]
      rw [List.filter_append,
        show List.filter (fun u =>
            senderValueD db u == senderValueD db t) ts = [] from by
          rw [List.filter_eq_nil_iff]
          intro u hu hbeq
          rw [beq_iff_eq] at hbeq
          exact hmem' (List.mem_map.mpr ⟨u, hu, hbeq⟩),
        show List.filter (fun u =>
            senderValueD db u == senderValueD db t) [t] = [t] from by
          simp [List.filter_cons]]
      simp [bucketRows]

lemma foldl_rdStep_specGroups (db : DB) (cp : Option ColorProfile)
    (res act : Bool) (ts : List Transaction) :
    ts.foldl (rdStep db none none cp res act) [] =
      specGroups db cp res act ts := by
  induction ts using List.reverseRecOn with
  | nil => rfl
  | append_singleton l t ih =>
    rw [List.foldl_append, ih]
    exact rdStep_specGroups db cp res act l t

lemma rdStep_accepted (db : DB) (sl tl : Option CheckLists)
    (cp : Option ColorProfile) (res act : Bool)
    (rd : List (String × List (List String))) (t : Transaction)
    (h : acceptedTx db sl tl t = true) :
    rdStep db sl tl cp res act rd t = rdStep db none none cp res act rd t := by
  unfold acceptedTx at h
  unfold rdStep
  cases sl with
  | none =>
    cases tl with
    | none => rfl
    | some M =>
      simp only [Bool.not_false, Bool.true_and, Bool.not_not] at h
      simp [h]
  | some L =>
    cases tl with
    | none =>
      simp only [Bool.not_false, Bool.and_true, Bool.not_not] at h
      simp [h]
    | some M =>
      simp only [Bool.not_not, Bool.and_eq_true] at h
      simp [h.1, h.2]

lemma foldl_rdStep_filter (db : DB) (sl tl : Option CheckLists)
    (cp : Option ColorProfile) (res act : Bool) (ts : List Transaction) :
    ∀ rd, ts.foldl (rdStep db sl tl cp res act) rd =
      (ts.filter (acceptedTx db sl tl)).foldl
        (rdStep db none none cp res act) rd := by
  induction ts with
  | nil =>
    intro rd
    rfl
  | cons u rest ih =>
    intro rd
    rw [List.foldl_cons, List.filter_cons]
    by_cases hacc : acceptedTx db sl tl u = true
    · rw [if_pos hacc, List.foldl_cons,
        rdStep_accepted db sl tl cp res act rd u hacc, ih]
    · have hacc' := Bool.eq_false_iff.mpr hacc
      rw [if_neg hacc, rdStep_skip db sl tl cp res act rd u hacc', ih]

lemma insertByCountDesc_pairwise (t : Transaction) (l : List Transaction)
    (h : l.Pairwise (fun u v => v.count ≤ u.count)) :
    (insertByCountDesc t l).Pairwise (fun u v => v.count ≤ u.count) := by
  induction l with
  | nil => simp [insertByCountDesc]
  | cons u rest ih =>
    rw [List.pairwise_cons] at h
    unfold insertByCountDesc
    by_cases hc : u.count < t.count
    · rw [if_pos hc, List.pairwise_cons]
      constructor
      · intro v hv
        rcases List.mem_cons.mp hv with rfl | hv'
        · exact Nat.le_of_lt hc
        · exact Nat.le_trans (h.1 v hv') (Nat.le_of_lt hc)
      · exact List.pairwise_cons.mpr h
    · rw [if_neg hc, List.pairwise_cons]
      constructor
      · intro v hv
        rcases mem_insertByCountDesc.mp hv with rfl | hv'
        · exact Nat.le_of_not_lt hc
        · exact h.1 v hv'
      · exact ih h.2

lemma sortByCountDesc_pairwise (ts : List Transaction) :
    (sortByCountDesc ts).Pairwise (fun u v => v.count ≤ u.count) := by
  suffices h : ∀ acc, acc.Pairwise (fun u v : Transaction => v.count ≤ u.count) →
      (ts.foldl (fun acc t => insertByCountDesc t acc) acc).Pairwise
        (fun u v => v.count ≤ u.count) by
    exact h [] List.Pairwise.nil
  induction ts with
  | nil =>
    intro acc hacc
    exact hacc
  | cons u rest ih =>
    intro acc hacc
    rw [List.foldl_cons]
    exact ih _ (insertByCountDesc_pairwise u acc hacc)

/-- C4 counterexample: with transactions (A,B):3, (C,D):2, (A,E):1 the
rendered rows are [A,B,3], [ ,E,1], [C,D,2] — the dict grouping pulls
(A,E) up into A's group, so the table's count column reads 3, 1, 2 and
is NOT ordered by descending count as the claim states. -/
theorem eavesarp_C4_counterexample :
    get_output (runPairs (fun _ => none) (fun _ => none)
        [("A", "B"), ("A", "B"), ("A", "B"),
         ("C", "D"), ("C", "D"), ("A", "E")])
      none none none false false =
      Output.table ["Sender", "Target", "ARP#"]
        [["A", "B", "3"], ["", "E", "1"], ["C", "D", "2"]] ∧
    isDescending (countColumn
      [["A", "B", "3"], ["", "E", "1"], ["C", "D", "2"]] 2) = false := by
  exact ⟨rfl, by decide⟩

/-- C4 (amended): the report sorts transactions by descending count and
then groups rows by sender with dict semantics — ALL of a sender's rows
are coalesced into one group placed at the sender's first appearance in
the sorted order (not only consecutive rows), the sender label rendered
only on a group's first row — so counts are descending within each group
but not necessarily across the whole table.  The claim's scenario stands:
ingesting [(A,B),(A,B),(A,C)] yields sender A labelled once with two
target rows, (A,B) count 2 before (A,C) count 1. -/
theorem eavesarp_C4 :
    (∀ db : DB, ∀ sl tl : Option CheckLists, ∀ cp : Option ColorProfile,
      ∀ res act : Bool, db.transactions ≠ [] →
      get_output db sl tl cp res act =
        Output.table (buildHeaders cp res act)
          (restructure cp (specGroups db cp res act
            ((sortByCountDesc db.transactions).filter
              (acceptedTx db sl tl))))) ∧
    (∀ ts : List Transaction, (sortByCountDesc ts).Pairwise
      (fun u v => v.count ≤ u.count)) ∧
    (get_output (runPairs (fun _ => none) (fun _ => none)
        [("A", "B"), ("A", "B"), ("A", "C")]) none none none false false =
      Output.table ["Sender", "Target", "ARP#"]
        [["A", "B", "2"], ["", "C", "1"]]) := by
  refine ⟨?_, sortByCountDesc_pairwise, rfl⟩
  intro db sl tl cp res act h
  rw [get_output_of_nonempty db sl tl cp res act h,
    foldl_rdStep_filter db sl tl cp res act _ [],
    foldl_rdStep_specGroups]

theorem eavesarp_C4_witness :
    ((runPairs (fun _ => none) (fun _ => none)
        [("A", "B"), ("A", "B"), ("A", "B"),
         ("C", "D"), ("C", "D"), ("A", "E")]).transactions ≠ []) ∧
    get_output (runPairs (fun _ => none) (fun _ => none)
        [("A", "B"), ("A", "B"), ("A", "B"),
         ("C", "D"), ("C", "D"), ("A", "E")]) none none none false false =
      Output.table (buildHeaders none false false)
        (restructure none (specGroups (runPairs (fun _ => none)
            (fun _ => none)
            [("A", "B"), ("A", "B"), ("A", "B"),
             ("C", "D"), ("C", "D"), ("A", "E")]) none false false
          ((sortByCountDesc (runPairs (fun _ => none) (fun _ => none)
              [("A", "B"), ("A", "B"), ("A", "B"),
               ("C", "D"), ("C", "D"), ("A", "E")]).transactions).filter
            (acceptedTx (runPairs (fun _ => none) (fun _ => none)
              [("A", "B"), ("A", "B"), ("A", "B"),
               ("C", "D"), ("C", "D"), ("A", "E")]) none none)))) :=
  ⟨by decide,
   eavesarp_C4.1 (runPairs (fun _ => none) (fun _ => none)
       [("A", "B"), ("A", "B"), ("A", "B"),
        ("C", "D"), ("C", "D"), ("A", "E")])
     none none none false false (by decide)⟩
